import Mathlib

/-!
Smart-Pay wallet ledger: a verification development.

Shallow embedding of `Smart-pay/backend/database.js` (the ledger operations
`updateWalletAtomic`, `getOrCreateWallet`, `getWalletBalance`,
`getTransactionHistory`) and of the HTTP and MQTT entry points of `Smart-pay/backend/server.js` that call them.

Modelling conventions.

* The MongoDB database is an explicit `Store` value passed in and out of every
  operation. A collection is the list of its documents in insertion order;
  `findOne` is "first match", `updateOne` rewrites the first match, `insertOne`
  appends. Driver-generated `_id`s are drawn from the counter `nextId`.
* The first embedding takes JavaScript numbers to be mathematical integers
  (`Int`); it carries the results that do not depend on rounding. The
  embedding in namespace `Ieee` repeats the mutation path and the request loop
  over doubles of integer value, the two infinities and `NaN`, with rounding
  to the nearest double; results about exact sums and about sequences of
  requests are stated there. The section on rational amounts evaluates one
  fractional top-up, and `topupRequest` evaluates the validation of
  `POST /topup` on raw body values.
* `new Date()` is the `now` argument of each operation (one clock reading per
  call).
* Storage faults (the `catch` branches that only fire when the driver throws)
  and the notification side channels (`io.emit`, `mqttClient.publish`) are not
  modelled: they do not touch the store.
* Requests are handled one at a time; interleavings are outside the model.
-/

namespace SmartPay

/-! ## Data model -/

/-- Document of the `cards` collection. -/
structure Card where
  id : Nat
  uid : String
  owner : Option String
  createdAt : Nat
deriving DecidableEq, Repr

/-- Document of the `wallets` collection. -/
structure Wallet where
  id : Nat
  cardUid : String
  balance : Int
  updatedAt : Nat
deriving DecidableEq, Repr

/-- Document of the `transactions` collection, as built in `updateWalletAtomic`. -/
structure Transaction where
  id : Nat
  cardUid : String
  type : String
  amount : Int
  previousBalance : Int
  newBalance : Int
  status : String
  reason : Option String
  createdAt : Nat
deriving DecidableEq, Repr

/-- Database state: the three collections the ledger uses and the id counter. -/
structure Store where
  cards : List Card
  wallets : List Wallet
  transactions : List Transaction
  nextId : Nat
deriving DecidableEq, Repr

/-- Value returned by `updateWalletAtomic`: the object of the `try` branch
(`success: true`) or the object of the `catch` branch (`success: false`). -/
inductive MutationResult where
  | ok (cardUid : String) (previousBalance newBalance : Int) (transactionId : Nat)
      (timestamp : Nat)
  | fail (error : String) (cardUid : String)
deriving DecidableEq, Repr

/-- Field `success` of a mutation result. -/
def MutationResult.success : MutationResult → Bool
  | .ok _ _ _ _ _ => true
  | .fail _ _ => false

/-- A database with no documents. -/
def emptyStore : Store :=
  { cards := [], wallets := [], transactions := [], nextId := 0 }

/-! ## Collection primitives -/

/-- The query `walletCollection.findOne({ cardUid })`. -/
def findWallet (ws : List Wallet) (cardUid : String) : Option Wallet :=
  ws.find? (fun w => w.cardUid == cardUid)

/-- The query `cardsCollection.findOne({ uid: cardUid })`. -/
def findCard (cs : List Card) (cardUid : String) : Option Card :=
  cs.find? (fun c => c.uid == cardUid)

/-- The update `walletCollection.updateOne({ cardUid }, { $set: { balance, updatedAt } })`:
the first matching document is rewritten, the others are left alone. -/
def updateOneWallet : List Wallet → String → Int → Nat → List Wallet
  | [], _, _, _ => []
  | w :: ws, cardUid, balance, now =>
    if w.cardUid == cardUid then
      { w with balance := balance, updatedAt := now } :: ws
    else
      w :: updateOneWallet ws cardUid balance now

/-! ## database.js -/

/-- Embedding of `updateWalletAtomic(cardUid, amount, transactionType, reason)`.
A `throw` inside the transaction callback happens before any write, so the
`catch` branch returns the store as it was. -/
def updateWalletAtomic (s : Store) (cardUid : String) (amount : Int)
    (transactionType : String) (reason : Option String) (now : Nat) :
    Store × MutationResult :=
  match findWallet s.wallets cardUid with
  | none => (s, .fail ("Wallet not found for card " ++ cardUid) cardUid)
  | some wallet =>
    let previousBalance := wallet.balance
    let newBalance := previousBalance + amount
    if transactionType = "PAYMENT" ∧ newBalance < 0 then
      (s, .fail "Insufficient balance" cardUid)
    else
      let transaction : Transaction :=
        { id := s.nextId
          cardUid := cardUid
          type := transactionType
          amount := (amount.natAbs : Int)
          previousBalance := previousBalance
          newBalance := newBalance
          status := "SUCCESS"
          reason := reason
          createdAt := now }
      ({ s with
          wallets := updateOneWallet s.wallets cardUid newBalance now
          transactions := s.transactions ++ [transaction]
          nextId := s.nextId + 1 },
        .ok cardUid previousBalance newBalance s.nextId now)

/-- Embedding of `getOrCreateWallet(cardUid)`. -/
def getOrCreateWallet (s : Store) (cardUid : String) (now : Nat) : Store × Wallet :=
  let s1 : Store :=
    match findCard s.cards cardUid with
    | some _ => s
    | none =>
      { s with
          cards := s.cards ++
            [{ id := s.nextId, uid := cardUid, owner := none, createdAt := now }]
          nextId := s.nextId + 1 }
  match findWallet s1.wallets cardUid with
  | some wallet => (s1, wallet)
  | none =>
    ({ s1 with
        wallets := s1.wallets ++
          [{ id := s1.nextId, cardUid := cardUid, balance := 0, updatedAt := now }]
        nextId := s1.nextId + 1 },
      { id := s1.nextId, cardUid := cardUid, balance := 0, updatedAt := now })

/-- Embedding of `getWalletBalance(cardUid)`; `none` is JavaScript `null`. -/
def getWalletBalance (s : Store) (cardUid : String) : Option Int :=
  (findWallet s.wallets cardUid).map (fun w => w.balance)

/-- The sort key `{ createdAt: -1 }`: `a` may come before `b` when `a` is at
least as recent as `b`. -/
def newestFirst (a b : Transaction) : Prop :=
  b.createdAt ≤ a.createdAt

instance (a b : Transaction) : Decidable (newestFirst a b) := by
  unfold newestFirst; infer_instance

instance newestFirst_total : IsTotal Transaction newestFirst :=
  ⟨fun a b => Nat.le_total b.createdAt a.createdAt⟩

instance newestFirst_trans : IsTrans Transaction newestFirst :=
  ⟨fun _ _ _ hab hbc => Nat.le_trans hbc hab⟩

/-- Embedding of `getTransactionHistory(cardUid, limit = 10)`: the records of
the card, sorted by `createdAt` descending, cut to `limit` documents. `none` is
an omitted limit; a limit of `0` means "no limit" for the database cursor.
Records with equal `createdAt` are kept in insertion order; the database leaves
their order open. The query reads the store and returns no new store. -/
def getTransactionHistory (s : Store) (cardUid : String) (limit : Option Nat) :
    List Transaction :=
  let found := s.transactions.filter (fun t => t.cardUid == cardUid)
  let sorted := found.insertionSort newestFirst
  match limit.getD 10 with
  | 0 => sorted
  | n + 1 => sorted.take (n + 1)

/-! ## server.js -/

/-- Body of `POST /topup`; `none` is an absent (`undefined`) field. -/
structure TopupBody where
  uid : Option String
  amount : Option Int
deriving DecidableEq, Repr

/-- Body of `POST /pay`; `none` is an absent (`undefined`) field. -/
structure PayBody where
  uid : Option String
  productId : Option String
  quantity : Option Int
  totalAmount : Option Int
deriving DecidableEq, Repr

/-- What a handler sends back. -/
inductive Response where
  | badRequest (error : String)
  | mutationFailed (result : MutationResult)
  | declined (reason : String) (required : Int) (available : Option Int)
  | topupOk (result : MutationResult)
  | payOk (uid : String) (amount previousBalance newBalance : Int) (status : String)
      (timestamp : Nat)
  | balanceOk (uid : String) (balance : Int) (timestamp : Nat)
deriving DecidableEq, Repr

/-- Template-literal rendering of an optional string field. -/
def renderStr : Option String → String
  | some x => x
  | none => "undefined"

/-- Template-literal rendering of an optional numeric field. -/
def renderNum : Option Int → String
  | some n => toString n
  | none => "undefined"

/-- Template-literal rendering of the value of `getWalletBalance`. -/
def renderBalance : Option Int → String
  | some n => toString n
  | none => "null"

/-- The comparison `wallet < totalAmount`, where `null` converts to `0`. -/
def balanceBelow (wallet : Option Int) (totalAmount : Int) : Bool :=
  decide (wallet.getD 0 < totalAmount)

/-- Embedding of the handler of `GET /balance/:uid`. -/
def balanceHandler (s : Store) (uid : String) (now : Nat) : Store × Response :=
  if uid == "" then
    (s, .badRequest "UID required")
  else
    let r := getOrCreateWallet s uid now
    (r.1, .balanceOk uid r.2.balance now)

/-- Embedding of the handler of `POST /topup`. The validation
`!uid || !amount || amount <= 0` rejects absent fields, the empty uid, zero and
negative amounts. -/
def topupHandler (s : Store) (body : TopupBody) (now : Nat) : Store × Response :=
  match body.uid, body.amount with
  | some uid, some amount =>
    if uid == "" || amount == 0 || decide (amount ≤ 0) then
      (s, .badRequest "Invalid UID or amount")
    else
      let s1 := (getOrCreateWallet s uid now).1
      let r := updateWalletAtomic s1 uid amount "TOPUP" (some "Admin top-up") now
      if !r.2.success then (r.1, .mutationFailed r.2) else (r.1, .topupOk r.2)
  | _, _ => (s, .badRequest "Invalid UID or amount")

/-- Embedding of the handler of `POST /pay`. -/
def payHandler (s : Store) (body : PayBody) (now : Nat) : Store × Response :=
  match body.uid, body.totalAmount with
  | some uid, some totalAmount =>
    if uid == "" || totalAmount == 0 || decide (totalAmount ≤ 0) then
      (s, .badRequest "Invalid UID or amount")
    else
      let s1 := (getOrCreateWallet s uid now).1
      let wallet := getWalletBalance s1 uid
      if balanceBelow wallet totalAmount then
        let r := updateWalletAtomic s1 uid 0 "PAYMENT"
          (some ("Failed: Insufficient balance. Required: " ++ toString totalAmount ++
            ", Available: " ++ renderBalance wallet)) now
        (r.1, .declined "Insufficient balance" totalAmount wallet)
      else
        let r := updateWalletAtomic s1 uid (-totalAmount) "PAYMENT"
          (some ("Product: " ++ renderStr body.productId ++ ", Qty: " ++
            renderNum body.quantity)) now
        match r.2 with
        | .fail e c => (r.1, .mutationFailed (.fail e c))
        | .ok _ previousBalance newBalance _ timestamp =>
          (r.1, .payOk uid totalAmount previousBalance newBalance "approved" timestamp)
  | _, _ => (s, .badRequest "Invalid UID or amount")

/-- A value of a JSON body field, restricted to the kinds on which the handlers
compute numerically: an absent field, `null`, a boolean, or a number. Strings,
arrays and objects are outside the model. -/
inductive JsValue where
  | undefined
  | null
  | bool (b : Bool)
  | num (n : Int)
deriving DecidableEq, Repr

/-- JavaScript truthiness (`!v` is its negation). -/
def JsValue.truthy : JsValue → Bool
  | .undefined => false
  | .null => false
  | .bool b => b
  | .num n => n != 0

/-- JavaScript numeric conversion, used by `v <= 0`, by `balance + v` and by
`Math.abs(v)`; `none` is `NaN`. -/
def JsValue.toNumber : JsValue → Option Int
  | .undefined => none
  | .null => some 0
  | .bool b => some (if b then 1 else 0)
  | .num n => some n

/-- Embedding of the handler of `POST /topup` on raw body values. The check
`!uid || !amount || amount <= 0` is evaluated with JavaScript truthiness and
numeric conversion; past it, `updateWalletAtomic` computes with the numeric
value of the amount (`previousBalance + amount`, `Math.abs(amount)`). An absent
uid and an absent amount (whose conversion is `NaN`) are falsy. -/
def topupRequest (s : Store) (uid : Option String) (amount : JsValue) (now : Nat) :
    Store × Response :=
  match uid, amount.toNumber with
  | some uid, some n =>
    if uid == "" || !amount.truthy || decide (n ≤ 0) then
      (s, .badRequest "Invalid UID or amount")
    else
      let s1 := (getOrCreateWallet s uid now).1
      let r := updateWalletAtomic s1 uid n "TOPUP" (some "Admin top-up") now
      if !r.2.success then (r.1, .mutationFailed r.2) else (r.1, .topupOk r.2)
  | _, _ => (s, .badRequest "Invalid UID or amount")

/-- A numeric or absent body field as a raw body value. -/
def JsValue.ofField : Option Int → JsValue
  | none => .undefined
  | some n => .num n

/-- Embedding of the MQTT handler for the card-status topic (a card scan):
the wallet is provisioned and the scan is broadcast. -/
def scanHandler (s : Store) (uid : String) (now : Nat) : Store :=
  (getOrCreateWallet s uid now).1

/-! ## The top-up path over rational amounts

The embedding above takes every number to be an integer, so it cannot express
a fractional amount in a request body. The definitions of this section repeat
the data model and the top-up path (`updateWalletAtomic`, `getOrCreateWallet`,
the handler of `POST /topup`) with numbers as rationals, to evaluate a top-up
of one half on a new card, where the rational sum `0 + 1/2` is also the sum of
the doubles. Rounding of doubles is not modelled here. The handler returns the
store only; its response is as above. -/

namespace Fractional

/-- Document of the `wallets` collection, with a rational balance. -/
structure Wallet where
  id : Nat
  cardUid : String
  balance : ℚ
  updatedAt : Nat
deriving DecidableEq

/-- Document of the `transactions` collection, with rational amounts. -/
structure Transaction where
  id : Nat
  cardUid : String
  type : String
  amount : ℚ
  previousBalance : ℚ
  newBalance : ℚ
  status : String
  reason : Option String
  createdAt : Nat
deriving DecidableEq

/-- Database state with rational amounts. -/
structure Store where
  cards : List Card
  wallets : List Wallet
  transactions : List Transaction
  nextId : Nat
deriving DecidableEq

/-- A database with no documents. -/
def emptyStore : Store :=
  { cards := [], wallets := [], transactions := [], nextId := 0 }

/-- The query `walletCollection.findOne({ cardUid })`. -/
def findWallet (ws : List Wallet) (cardUid : String) : Option Wallet :=
  ws.find? (fun w => w.cardUid == cardUid)

/-- The update `walletCollection.updateOne` on the first matching document. -/
def updateOneWallet : List Wallet → String → ℚ → Nat → List Wallet
  | [], _, _, _ => []
  | w :: ws, cardUid, balance, now =>
    if w.cardUid == cardUid then
      { w with balance := balance, updatedAt := now } :: ws
    else
      w :: updateOneWallet ws cardUid balance now

/-- Embedding of `updateWalletAtomic` over rational amounts; the second
component is the field `success` of the returned object. -/
def updateWalletAtomic (s : Store) (cardUid : String) (amount : ℚ)
    (transactionType : String) (reason : Option String) (now : Nat) : Store × Bool :=
  match findWallet s.wallets cardUid with
  | none => (s, false)
  | some wallet =>
    let previousBalance := wallet.balance
    let newBalance := previousBalance + amount
    if transactionType = "PAYMENT" ∧ newBalance < 0 then
      (s, false)
    else
      let transaction : Transaction :=
        { id := s.nextId
          cardUid := cardUid
          type := transactionType
          amount := |amount|
          previousBalance := previousBalance
          newBalance := newBalance
          status := "SUCCESS"
          reason := reason
          createdAt := now }
      ({ s with
          wallets := updateOneWallet s.wallets cardUid newBalance now
          transactions := s.transactions ++ [transaction]
          nextId := s.nextId + 1 },
        true)

/-- Embedding of `getOrCreateWallet` over rational balances. -/
def getOrCreateWallet (s : Store) (cardUid : String) (now : Nat) : Store × Wallet :=
  let s1 : Store :=
    match findCard s.cards cardUid with
    | some _ => s
    | none =>
      { s with
          cards := s.cards ++
            [{ id := s.nextId, uid := cardUid, owner := none, createdAt := now }]
          nextId := s.nextId + 1 }
  match findWallet s1.wallets cardUid with
  | some wallet => (s1, wallet)
  | none =>
    ({ s1 with
        wallets := s1.wallets ++
          [{ id := s1.nextId, cardUid := cardUid, balance := 0, updatedAt := now }]
        nextId := s1.nextId + 1 },
      { id := s1.nextId, cardUid := cardUid, balance := 0, updatedAt := now })

/-- Store after `POST /topup` with the given uid and amount (`none`: absent). -/
def topupHandler (s : Store) (uid : Option String) (amount : Option ℚ) (now : Nat) :
    Store :=
  match uid, amount with
  | some uid, some amount =>
    if uid == "" || amount == 0 || decide (amount ≤ 0) then
      s
    else
      let s1 := (getOrCreateWallet s uid now).1
      (updateWalletAtomic s1 uid amount "TOPUP" (some "Admin top-up") now).1
  | _, _ => s

/-- The number is a whole number of currency units. -/
def IsWhole (q : ℚ) : Prop :=
  q.den = 1

instance (q : ℚ) : Decidable (IsWhole q) := by
  unfold IsWhole; infer_instance

end Fractional

/-! ## The mutation path over JavaScript numbers

JavaScript numbers are IEEE 754 doubles. The embedding of this section repeats
the data model, `updateWalletAtomic`, `getOrCreateWallet`, `getWalletBalance`
and the request handlers with the numbers that integer amounts give rise to:
a double whose value is an integer (`fin n`), `Infinity`, `-Infinity` and `NaN`.
Addition rounds to the nearest double, ties to even, and overflows to an
infinity; comparisons with `NaN` are false. Fractional doubles, the negative
zero, and body values that are no numbers are outside this embedding. The text
a template literal gives for a number is the parameter `render`. -/

namespace Ieee

/-- A JavaScript number whose value is an integer, or one of the three special
values. `fin n` stands for the double of value `n`; an integer that is no
double is not a value of the program. -/
inductive JsNum where
  | fin (n : Int)
  | posInf
  | negInf
  | nan
deriving DecidableEq, Repr

/-- Every integer of magnitude up to `2 ^ 53` is a double. -/
def maxExact : Nat := 9007199254740992

/-- The magnitude `2 ^ 1024` at which a rounded result overflows. -/
def overflowBound : Nat := 2 ^ 256 * 2 ^ 256 * 2 ^ 256 * 2 ^ 256

/-- Number of low bits of `m` beyond the 53 bits of a significand: the number
of halvings that bring `m` below `2 ^ 53`. The first argument bounds the
recursion; `m` itself is enough. -/
def excessBits : Nat → Nat → Nat
  | 0, _ => 0
  | fuel + 1, m => if m < 2 ^ 53 then 0 else excessBits fuel (m / 2) + 1

/-- Nearest double to the natural number `m`, ties to the even significand,
with an unbounded exponent: with no excess bit the number itself; otherwise the
`k` excess bits are rounded away. -/
def roundMag (m : Nat) : Nat :=
  let k := excessBits m m
  let q := m / 2 ^ k
  let r := m % 2 ^ k
  let half := 2 ^ (k - 1)
  if k = 0 then m
  else if half < r ∨ (r = half ∧ q % 2 = 1) then (q + 1) * 2 ^ k else q * 2 ^ k

/-- The double nearest to the integer `n` (the result of an exact integer sum),
an infinity when the rounded magnitude reaches `2 ^ 1024`. -/
def roundInt (n : Int) : JsNum :=
  if overflowBound ≤ roundMag n.natAbs then
    (if n < 0 then .negInf else .posInf)
  else
    .fin (if n < 0 then -(roundMag n.natAbs : Int) else (roundMag n.natAbs : Int))

/-- The operator `a + b` on numbers. -/
def JsNum.add : JsNum → JsNum → JsNum
  | .nan, _ => .nan
  | _, .nan => .nan
  | .posInf, .negInf => .nan
  | .negInf, .posInf => .nan
  | .posInf, _ => .posInf
  | _, .posInf => .posInf
  | .negInf, _ => .negInf
  | _, .negInf => .negInf
  | .fin a, .fin b => roundInt (a + b)

/-- The unary operator `-a`. -/
def JsNum.neg : JsNum → JsNum
  | .fin a => .fin (-a)
  | .posInf => .negInf
  | .negInf => .posInf
  | .nan => .nan

/-- The function `Math.abs`. -/
def JsNum.abs : JsNum → JsNum
  | .fin a => .fin (a.natAbs : Int)
  | .posInf => .posInf
  | .negInf => .posInf
  | .nan => .nan

/-- The comparison `a < b`; false when either side is `NaN`. -/
def JsNum.lt : JsNum → JsNum → Bool
  | .nan, _ => false
  | _, .nan => false
  | .fin a, .fin b => decide (a < b)
  | .fin _, .posInf => true
  | .fin _, .negInf => false
  | .posInf, _ => false
  | .negInf, .negInf => false
  | .negInf, _ => true

/-- The comparison `a <= b`; false when either side is `NaN`. -/
def JsNum.le : JsNum → JsNum → Bool
  | .nan, _ => false
  | _, .nan => false
  | .fin a, .fin b => decide (a ≤ b)
  | .fin _, .posInf => true
  | .fin _, .negInf => false
  | .posInf, .posInf => true
  | .posInf, _ => false
  | .negInf, _ => true

/-- JavaScript truthiness of a number: `0` and `NaN` are falsy. -/
def JsNum.truthy : JsNum → Bool
  | .fin a => a != 0
  | .posInf => true
  | .negInf => true
  | .nan => false

/-- Document of the `wallets` collection. -/
structure Wallet where
  id : Nat
  cardUid : String
  balance : JsNum
  updatedAt : Nat
deriving DecidableEq, Repr

/-- Document of the `transactions` collection. -/
structure Transaction where
  id : Nat
  cardUid : String
  type : String
  amount : JsNum
  previousBalance : JsNum
  newBalance : JsNum
  status : String
  reason : Option String
  createdAt : Nat
deriving DecidableEq, Repr

/-- Database state. -/
structure Store where
  cards : List Card
  wallets : List Wallet
  transactions : List Transaction
  nextId : Nat
deriving DecidableEq, Repr

/-- Value returned by `updateWalletAtomic`. -/
inductive MutationResult where
  | ok (cardUid : String) (previousBalance newBalance : JsNum) (transactionId : Nat)
      (timestamp : Nat)
  | fail (error : String) (cardUid : String)
deriving DecidableEq, Repr

/-- Field `success` of a mutation result. -/
def MutationResult.success : MutationResult → Bool
  | .ok _ _ _ _ _ => true
  | .fail _ _ => false

/-- A database with no documents. -/
def emptyStore : Store :=
  { cards := [], wallets := [], transactions := [], nextId := 0 }

/-- The query `walletCollection.findOne({ cardUid })`. -/
def findWallet (ws : List Wallet) (cardUid : String) : Option Wallet :=
  ws.find? (fun w => w.cardUid == cardUid)

/-- The update `walletCollection.updateOne` on the first matching document. -/
def updateOneWallet : List Wallet → String → JsNum → Nat → List Wallet
  | [], _, _, _ => []
  | w :: ws, cardUid, balance, now =>
    if w.cardUid == cardUid then
      { w with balance := balance, updatedAt := now } :: ws
    else
      w :: updateOneWallet ws cardUid balance now

/-- Embedding of `updateWalletAtomic(cardUid, amount, transactionType, reason)`
over JavaScript numbers. -/
def updateWalletAtomic (s : Store) (cardUid : String) (amount : JsNum)
    (transactionType : String) (reason : Option String) (now : Nat) :
    Store × MutationResult :=
  match findWallet s.wallets cardUid with
  | none => (s, .fail ("Wallet not found for card " ++ cardUid) cardUid)
  | some wallet =>
    let previousBalance := wallet.balance
    let newBalance := previousBalance.add amount
    if transactionType = "PAYMENT" ∧ newBalance.lt (.fin 0) = true then
      (s, .fail "Insufficient balance" cardUid)
    else
      let transaction : Transaction :=
        { id := s.nextId
          cardUid := cardUid
          type := transactionType
          amount := amount.abs
          previousBalance := previousBalance
          newBalance := newBalance
          status := "SUCCESS"
          reason := reason
          createdAt := now }
      ({ s with
          wallets := updateOneWallet s.wallets cardUid newBalance now
          transactions := s.transactions ++ [transaction]
          nextId := s.nextId + 1 },
        .ok cardUid previousBalance newBalance s.nextId now)

/-- Embedding of `getOrCreateWallet(cardUid)`. -/
def getOrCreateWallet (s : Store) (cardUid : String) (now : Nat) : Store × Wallet :=
  let s1 : Store :=
    match findCard s.cards cardUid with
    | some _ => s
    | none =>
      { s with
          cards := s.cards ++
            [{ id := s.nextId, uid := cardUid, owner := none, createdAt := now }]
          nextId := s.nextId + 1 }
  match findWallet s1.wallets cardUid with
  | some wallet => (s1, wallet)
  | none =>
    ({ s1 with
        wallets := s1.wallets ++
          [{ id := s1.nextId, cardUid := cardUid, balance := .fin 0, updatedAt := now }]
        nextId := s1.nextId + 1 },
      { id := s1.nextId, cardUid := cardUid, balance := .fin 0, updatedAt := now })

/-- Embedding of `getWalletBalance(cardUid)`; `none` is JavaScript `null`. -/
def getWalletBalance (s : Store) (cardUid : String) : Option JsNum :=
  (findWallet s.wallets cardUid).map (fun w => w.balance)

/-- Body of `POST /topup`; `none` is an absent field. -/
structure TopupBody where
  uid : Option String
  amount : Option JsNum
deriving DecidableEq, Repr

/-- Body of `POST /pay`; `none` is an absent field. -/
structure PayBody where
  uid : Option String
  productId : Option String
  quantity : Option JsNum
  totalAmount : Option JsNum
deriving DecidableEq, Repr

/-- What a handler sends back. -/
inductive Response where
  | badRequest (error : String)
  | mutationFailed (result : MutationResult)
  | declined (reason : String) (required : JsNum) (available : Option JsNum)
  | topupOk (result : MutationResult)
  | payOk (uid : String) (amount previousBalance newBalance : JsNum) (status : String)
      (timestamp : Nat)
  | balanceOk (uid : String) (balance : JsNum) (timestamp : Nat)
deriving DecidableEq, Repr

/-- Template-literal text of an optional number, `undefined` when absent. -/
def renderField (render : JsNum → String) : Option JsNum → String
  | some x => render x
  | none => "undefined"

/-- Template-literal text of the value of `getWalletBalance`. -/
def renderBalance (render : JsNum → String) : Option JsNum → String
  | some x => render x
  | none => "null"

/-- The comparison `wallet < totalAmount`, where `null` converts to `0`. -/
def balanceBelow (wallet : Option JsNum) (totalAmount : JsNum) : Bool :=
  (wallet.getD (.fin 0)).lt totalAmount

/-- Embedding of the handler of `GET /balance/:uid`. -/
def balanceHandler (s : Store) (uid : String) (now : Nat) : Store × Response :=
  if uid == "" then
    (s, .badRequest "UID required")
  else
    let r := getOrCreateWallet s uid now
    (r.1, .balanceOk uid r.2.balance now)

/-- Embedding of the handler of `POST /topup`. The validation
`!uid || !amount || amount <= 0` rejects absent fields, the empty uid, `0`,
`NaN` and every number that is `<= 0`; it lets `Infinity` through. -/
def topupHandler (s : Store) (body : TopupBody) (now : Nat) : Store × Response :=
  match body.uid, body.amount with
  | some uid, some amount =>
    if uid == "" || !amount.truthy || amount.le (.fin 0) then
      (s, .badRequest "Invalid UID or amount")
    else
      let s1 := (getOrCreateWallet s uid now).1
      let r := updateWalletAtomic s1 uid amount "TOPUP" (some "Admin top-up") now
      if !r.2.success then (r.1, .mutationFailed r.2) else (r.1, .topupOk r.2)
  | _, _ => (s, .badRequest "Invalid UID or amount")

/-- Embedding of the handler of `POST /pay`. -/
def payHandler (render : JsNum → String) (s : Store) (body : PayBody) (now : Nat) :
    Store × Response :=
  match body.uid, body.totalAmount with
  | some uid, some totalAmount =>
    if uid == "" || !totalAmount.truthy || totalAmount.le (.fin 0) then
      (s, .badRequest "Invalid UID or amount")
    else
      let s1 := (getOrCreateWallet s uid now).1
      let wallet := getWalletBalance s1 uid
      if balanceBelow wallet totalAmount then
        let r := updateWalletAtomic s1 uid (.fin 0) "PAYMENT"
          (some ("Failed: Insufficient balance. Required: " ++ render totalAmount ++
            ", Available: " ++ renderBalance render wallet)) now
        (r.1, .declined "Insufficient balance" totalAmount wallet)
      else
        let r := updateWalletAtomic s1 uid totalAmount.neg "PAYMENT"
          (some ("Product: " ++ renderStr body.productId ++ ", Qty: " ++
            renderField render body.quantity)) now
        match r.2 with
        | .fail e c => (r.1, .mutationFailed (.fail e c))
        | .ok _ previousBalance newBalance _ timestamp =>
          (r.1, .payOk uid totalAmount previousBalance newBalance "approved" timestamp)
  | _, _ => (s, .badRequest "Invalid UID or amount")

/-- Embedding of the MQTT handler for a card scan. -/
def scanHandler (s : Store) (uid : String) (now : Nat) : Store :=
  (getOrCreateWallet s uid now).1

/-- One inbound request together with the clock reading while it is handled. -/
inductive Request where
  | scan (uid : String) (now : Nat)
  | balance (uid : String) (now : Nat)
  | topup (body : TopupBody) (now : Nat)
  | pay (body : PayBody) (now : Nat)
deriving DecidableEq, Repr

/-- Store after handling one request. -/
def step (render : JsNum → String) (s : Store) : Request → Store
  | .scan uid now => scanHandler s uid now
  | .balance uid now => (balanceHandler s uid now).1
  | .topup body now => (topupHandler s body now).1
  | .pay body now => (payHandler render s body now).1

/-- Store after handling a sequence of requests one at a time. -/
def run (render : JsNum → String) (s : Store) (reqs : List Request) : Store :=
  reqs.foldl (step render) s

end Ieee

/-! ## Specification vocabulary -/

/-- Every wallet document holds a non-negative balance. -/
def NonNegBalances (s : Store) : Prop :=
  ∀ w ∈ s.wallets, 0 ≤ w.balance

instance (s : Store) : Decidable (NonNegBalances s) := by
  unfold NonNegBalances; infer_instance

/-- Signed amount recovered from a stored record, in the words of the
specification: the stored amount is unsigned, a TOPUP counts positively and a
PAYMENT negatively. -/
def signedAmount (t : Transaction) : Int :=
  if t.type = "TOPUP" then t.amount
  else if t.type = "PAYMENT" then -t.amount
  else 0

/-- Calling `getOrCreateWallet(uid)` once per clock reading in `nows`, in
succession; returns the final store and the wallets returned by the calls. -/
def provisionMany (s : Store) (uid : String) : List Nat → Store × List Wallet
  | [] => (s, [])
  | now :: rest =>
    let r := getOrCreateWallet s uid now
    let r' := provisionMany r.1 uid rest
    (r'.1, r.2 :: r'.2)

/-- Number of card documents with the given uid. -/
def cardCount (s : Store) (uid : String) : Nat :=
  (s.cards.filter (fun c => c.uid == uid)).length

/-- Number of wallet documents with the given card uid. -/
def walletCount (s : Store) (uid : String) : Nat :=
  (s.wallets.filter (fun w => w.cardUid == uid)).length

/-- The sign of the amount agrees with the type, as in the calls made by the
request handlers: a TOPUP carries a non-negative amount, a PAYMENT a
non-positive one. -/
def SignAgrees (ty : String) (amount : Int) : Prop :=
  (ty = "TOPUP" ∧ 0 ≤ amount) ∨ (ty = "PAYMENT" ∧ amount ≤ 0)

instance (ty : String) (amount : Int) : Decidable (SignAgrees ty amount) := by
  unfold SignAgrees; infer_instance

/-- Store with one card `X` holding 300 and an empty transaction log. -/
def store300 : Store :=
  { cards := [{ id := 0, uid := "X", owner := none, createdAt := 1 }]
    wallets := [{ id := 1, cardUid := "X", balance := 300, updatedAt := 1 }]
    transactions := []
    nextId := 2 }

/-- Store with two cards, `X` holding 300 and `Y` holding 50, and one record of
an earlier top-up of `Y`. -/
def storeXY : Store :=
  { cards := [{ id := 0, uid := "X", owner := none, createdAt := 1 },
              { id := 2, uid := "Y", owner := none, createdAt := 2 }]
    wallets := [{ id := 1, cardUid := "X", balance := 300, updatedAt := 1 },
                { id := 3, cardUid := "Y", balance := 50, updatedAt := 3 }]
    transactions := [{ id := 4, cardUid := "Y", type := "TOPUP", amount := 50,
                       previousBalance := 0, newBalance := 50, status := "SUCCESS",
                       reason := some "Admin top-up", createdAt := 3 }]
    nextId := 5 }

/-- Store with four records of card `X`, appended out of time order, and one of `Y`. -/
def storeHistory : Store :=
  { cards := []
    wallets := []
    transactions :=
      [{ id := 0, cardUid := "X", type := "TOPUP", amount := 10, previousBalance := 0,
         newBalance := 10, status := "SUCCESS", reason := none, createdAt := 5 },
       { id := 1, cardUid := "Y", type := "TOPUP", amount := 10, previousBalance := 0,
         newBalance := 10, status := "SUCCESS", reason := none, createdAt := 9 },
       { id := 2, cardUid := "X", type := "TOPUP", amount := 10, previousBalance := 10,
         newBalance := 20, status := "SUCCESS", reason := none, createdAt := 8 },
       { id := 3, cardUid := "X", type := "TOPUP", amount := 10, previousBalance := 20,
         newBalance := 30, status := "SUCCESS", reason := none, createdAt := 3 },
       { id := 4, cardUid := "X", type := "TOPUP", amount := 10, previousBalance := 30,
         newBalance := 40, status := "SUCCESS", reason := none, createdAt := 7 }]
    nextId := 5 }

/-- The number is a double of integer value (neither an infinity nor `NaN`). -/
def Ieee.JsNum.isFin : Ieee.JsNum → Bool
  | .fin _ => true
  | _ => false

/-- Every wallet document holds a balance `b` with `0 <= b`. -/
def Ieee.NonNegBalances (s : Ieee.Store) : Prop :=
  ∀ w ∈ s.wallets, Ieee.JsNum.le (.fin 0) w.balance = true

instance (s : Ieee.Store) : Decidable (Ieee.NonNegBalances s) := by
  unfold Ieee.NonNegBalances; infer_instance

/-- The amount of the request body, when there is one, is a finite number. -/
def Ieee.finiteAmount : Ieee.Request → Bool
  | .topup body _ =>
    match body.amount with
    | some a => a.isFin
    | none => true
  | .pay body _ =>
    match body.totalAmount with
    | some a => a.isFin
    | none => true
  | _ => true

/-- Signed amount recovered from a stored record whose amount is finite, in the
words of the specification: a TOPUP counts positively and a PAYMENT negatively.
A record whose amount is not finite has none. -/
def Ieee.signedAmount (t : Ieee.Transaction) : Option Int :=
  match t.amount with
  | .fin a =>
    some (if t.type = "TOPUP" then a else if t.type = "PAYMENT" then -a else 0)
  | _ => none

/-- Exact sum of the signed amounts of a list of records, in append order
from 0; none when some amount is not finite. -/
def Ieee.signedSum : List Ieee.Transaction → Option Int
  | [] => some 0
  | t :: ts =>
    match Ieee.signedAmount t, Ieee.signedSum ts with
    | some a, some r => some (a + r)
    | _, _ => none

/-- The SUCCESS records of one card, in append order. -/
def Ieee.successOf (txs : List Ieee.Transaction) (uid : String) : List Ieee.Transaction :=
  txs.filter (fun t => t.cardUid == uid && t.status == "SUCCESS")

/-- The records chain from balance `p` to balance `q`. -/
def Ieee.Chained : Ieee.JsNum → List Ieee.Transaction → Ieee.JsNum → Prop
  | p, [], q => p = q
  | p, t :: ts, q => t.previousBalance = p ∧ Ieee.Chained t.newBalance ts q

/-- The amount a request adds when it is an accepted top-up, else 0. -/
def Ieee.topupAmount : Ieee.Request → Int
  | .topup body _ =>
    match body.amount with
    | some (.fin a) => if 0 < a then a else 0
    | _ => 0
  | _ => 0

/-- Total of the top-up amounts of a sequence of requests. -/
def Ieee.topupTotal (reqs : List Ieee.Request) : Int :=
  (reqs.map Ieee.topupAmount).sum

/-- The ledger of card `uid` is consistent and its balance is an integer `b`
with `0 <= b <= bound`: the wallet exists, `b` is the exact sum of the signed
amounts of the card's SUCCESS records, and those records chain from 0 to `b`. -/
def Ieee.LedgerChain (s : Ieee.Store) (uid : String) (bound : Int) : Prop :=
  ∃ b : Int, Ieee.getWalletBalance s uid = some (.fin b) ∧ 0 ≤ b ∧ b ≤ bound ∧
    Ieee.signedSum (Ieee.successOf s.transactions uid) = some b ∧
    Ieee.Chained (.fin 0) (Ieee.successOf s.transactions uid) (.fin b)

/-- Integers of magnitude up to `2 ^ 52`: the sum of two of them is of magnitude
at most `2 ^ 53` and so is not rounded. -/
def Ieee.halfExact : Nat := 4503599627370496

/-- Every stored balance and every amount and balance written in a record is
an integer (a finite number of integer value). -/
def Ieee.IntegerStore (s : Ieee.Store) : Prop :=
  (∀ w ∈ s.wallets, w.balance.isFin = true) ∧
    ∀ t ∈ s.transactions,
      t.amount.isFin = true ∧ t.previousBalance.isFin = true ∧ t.newBalance.isFin = true

/-- The number is an integer of magnitude at most `2 ^ 52`. -/
def Ieee.JsNum.isSmall : Ieee.JsNum → Bool
  | .fin n => decide (n.natAbs ≤ Ieee.halfExact)
  | _ => false

/-- Every stored balance is an integer of magnitude at most `2 ^ 52`. -/
def Ieee.SmallBalances (s : Ieee.Store) : Prop :=
  ∀ w ∈ s.wallets, w.balance.isSmall = true

instance (s : Ieee.Store) : Decidable (Ieee.SmallBalances s) := by
  unfold Ieee.SmallBalances; infer_instance

instance (s : Ieee.Store) : Decidable (Ieee.IntegerStore s) := by
  unfold Ieee.IntegerStore; infer_instance

/-- The record appended when 200 is paid from `Ieee.store300` at time 7. -/
def Ieee.payment200Record : Ieee.Transaction :=
  { id := 2, cardUid := "X", type := "PAYMENT", amount := .fin 200,
    previousBalance := .fin 300, newBalance := .fin 100, status := "SUCCESS",
    reason := none, createdAt := 7 }

/-- Store with one card `X` whose balance is `2 ^ 53`. -/
def Ieee.storeBig : Ieee.Store :=
  { cards := [{ id := 0, uid := "X", owner := none, createdAt := 1 }]
    wallets := [{ id := 1, cardUid := "X", balance := .fin 9007199254740992, updatedAt := 1 }]
    transactions := []
    nextId := 2 }

/-- Store with one card `X` whose balance is `2 ^ 53 + 2`. -/
def Ieee.storeBigger : Ieee.Store :=
  { cards := [{ id := 0, uid := "X", owner := none, createdAt := 1 }]
    wallets := [{ id := 1, cardUid := "X", balance := .fin 9007199254740994, updatedAt := 1 }]
    transactions := []
    nextId := 2 }

/-- Store with one card `X` holding 300 and an empty transaction log. -/
def Ieee.store300 : Ieee.Store :=
  { cards := [{ id := 0, uid := "X", owner := none, createdAt := 1 }]
    wallets := [{ id := 1, cardUid := "X", balance := .fin 300, updatedAt := 1 }]
    transactions := []
    nextId := 2 }

/-- Store right after card `X` was provisioned in the empty store. -/
def Ieee.storeFresh : Ieee.Store :=
  (Ieee.getOrCreateWallet Ieee.emptyStore "X" 1).1

/-! ## Lemmas on the collection primitives -/

theorem findWallet_cardUid {ws : List Wallet} {uid : String} {w : Wallet}
    (h : findWallet ws uid = some w) : w.cardUid = uid := by
  have h1 := List.find?_some h
  simpa using h1

theorem findWallet_mem {ws : List Wallet} {uid : String} {w : Wallet}
    (h : findWallet ws uid = some w) : w ∈ ws :=
  List.mem_of_find?_eq_some h

theorem findWallet_updateOne_self (uid : String) (bal : Int) (now : Nat) (w : Wallet) :
    ∀ ws : List Wallet, findWallet ws uid = some w →
      findWallet (updateOneWallet ws uid bal now) uid =
        some { w with balance := bal, updatedAt := now } := by
  intro ws
  induction ws with
  | nil => intro h; simp [findWallet] at h
  | cons x xs ih =>
    intro h
    by_cases hx : x.cardUid = uid
    · have hb : (x.cardUid == uid) = true := by simp [hx]
      have hw : x = w := by
        simpa [findWallet, List.find?_cons, hb] using h
      subst hw
      simp only [findWallet, updateOneWallet, hb, ↓reduceIte, List.find?_cons]
    · have hb : (x.cardUid == uid) = false := by simp [hx]
      have h' : findWallet xs uid = some w := by
        simpa [findWallet, List.find?_cons, hb] using h
      have h2 := ih h'
      simp only [findWallet, updateOneWallet, hb, Bool.false_eq_true, ↓reduceIte,
        List.find?_cons] at h2 ⊢
      exact h2

theorem findWallet_updateOne_other (uid uid' : String) (bal : Int) (now : Nat)
    (hne : uid' ≠ uid) :
    ∀ ws : List Wallet,
      findWallet (updateOneWallet ws uid bal now) uid' = findWallet ws uid' := by
  intro ws
  induction ws with
  | nil => rfl
  | cons x xs ih =>
    by_cases hx : x.cardUid = uid
    · have hb : (x.cardUid == uid) = true := by simp [hx]
      have hb' : (x.cardUid == uid') = false := by
        simp only [beq_eq_false_iff_ne, ne_eq]
        rw [hx]; exact fun e => hne e.symm
      simp only [findWallet, updateOneWallet, hb, ↓reduceIte, List.find?_cons, hb']
    · have hb : (x.cardUid == uid) = false := by simp [hx]
      simp only [findWallet, updateOneWallet, hb, Bool.false_eq_true, ↓reduceIte,
        List.find?_cons] at ih ⊢
      cases hy : (x.cardUid == uid')
      · simpa [hy] using ih
      · simp [hy]

theorem mem_updateOneWallet (uid : String) (bal : Int) (now : Nat) (w' : Wallet) :
    ∀ ws : List Wallet, w' ∈ updateOneWallet ws uid bal now →
      w' ∈ ws ∨ w'.balance = bal := by
  intro ws
  induction ws with
  | nil => intro h; simp [updateOneWallet] at h
  | cons x xs ih =>
    intro h
    by_cases hx : x.cardUid = uid
    · simp [updateOneWallet, hx] at h
      rcases h with h | h
      · right; rw [h]
      · left; simp [h]
    · simp [updateOneWallet, hx] at h
      rcases h with h | h
      · left; simp [h]
      · rcases ih h with h1 | h1
        · left; simp [h1]
        · right; exact h1

theorem getWalletBalance_eq_some {s : Store} {uid : String} {b : Int}
    (h : getWalletBalance s uid = some b) :
    ∃ w, findWallet s.wallets uid = some w ∧ w.balance = b := by
  unfold getWalletBalance at h
  cases hf : findWallet s.wallets uid with
  | none => simp [hf] at h
  | some w => exact ⟨w, rfl, by simpa [hf] using h⟩

/-! ## Lemmas on `updateWalletAtomic` -/

theorem updateWalletAtomic_missing (s : Store) (cardUid : String) (amount : Int)
    (ty : String) (reason : Option String) (now : Nat)
    (h : findWallet s.wallets cardUid = none) :
    updateWalletAtomic s cardUid amount ty reason now =
      (s, .fail ("Wallet not found for card " ++ cardUid) cardUid) := by
  simp [updateWalletAtomic, h]

theorem updateWalletAtomic_rejected (s : Store) (cardUid : String) (amount : Int)
    (reason : Option String) (now : Nat) (w : Wallet)
    (h : findWallet s.wallets cardUid = some w) (hneg : w.balance + amount < 0) :
    updateWalletAtomic s cardUid amount "PAYMENT" reason now =
      (s, .fail "Insufficient balance" cardUid) := by
  simp [updateWalletAtomic, h, hneg]

theorem updateWalletAtomic_committed (s : Store) (cardUid : String) (amount : Int)
    (ty : String) (reason : Option String) (now : Nat) (w : Wallet)
    (h : findWallet s.wallets cardUid = some w)
    (hok : ¬ (ty = "PAYMENT" ∧ w.balance + amount < 0)) :
    updateWalletAtomic s cardUid amount ty reason now =
      ({ s with
          wallets := updateOneWallet s.wallets cardUid (w.balance + amount) now
          transactions := s.transactions ++
            [{ id := s.nextId, cardUid := cardUid, type := ty,
               amount := (amount.natAbs : Int), previousBalance := w.balance,
               newBalance := w.balance + amount, status := "SUCCESS",
               reason := reason, createdAt := now }]
          nextId := s.nextId + 1 },
        .ok cardUid w.balance (w.balance + amount) s.nextId now) := by
  simp only [updateWalletAtomic, h]
  rw [if_neg hok]

theorem getWalletBalance_of_findWallet {s : Store} {uid : String} {w : Wallet}
    (h : findWallet s.wallets uid = some w) : getWalletBalance s uid = some w.balance := by
  simp [getWalletBalance, h]

theorem findWallet_eq_none_of_absent {ws : List Wallet} {uid : String}
    (h : ∀ w ∈ ws, w.cardUid ≠ uid) : findWallet ws uid = none := by
  unfold findWallet
  rw [List.find?_eq_none]
  intro w hw
  simpa using h w hw

/-! ## Contract of `updateWalletAtomic` -/

/-- C2: when the store holds no wallet for `cardUid`, `updateWalletAtomic`
returns the failure result naming the missing wallet and the same card, and the
store is returned as it was (no wallet, card or record is added). -/
theorem updateWalletAtomic_wallet_not_found (s : Store) (cardUid : String) (amount : Int)
    (ty : String) (reason : Option String) (now : Nat)
    (habsent : ∀ w ∈ s.wallets, w.cardUid ≠ cardUid) :
    (updateWalletAtomic s cardUid amount ty reason now).2 =
        .fail ("Wallet not found for card " ++ cardUid) cardUid ∧
      (updateWalletAtomic s cardUid amount ty reason now).2.success = false ∧
      (updateWalletAtomic s cardUid amount ty reason now).1 = s := by
  rw [updateWalletAtomic_missing s cardUid amount ty reason now
    (findWallet_eq_none_of_absent habsent)]
  exact ⟨rfl, rfl, rfl⟩

/-- Witness for C2: card `Y` has no wallet in the store that only knows `X`. -/
theorem updateWalletAtomic_wallet_not_found_witness :
    (∀ w ∈ store300.wallets, w.cardUid ≠ "Y") ∧
    (updateWalletAtomic store300 "Y" 50 "TOPUP" none 7).2 =
        .fail ("Wallet not found for card " ++ "Y") "Y" ∧
      (updateWalletAtomic store300 "Y" 50 "TOPUP" none 7).2.success = false ∧
      (updateWalletAtomic store300 "Y" 50 "TOPUP" none 7).1 = store300 :=
  ⟨by decide,
    updateWalletAtomic_wallet_not_found store300 "Y" 50 "TOPUP" none 7 (by decide)⟩

/-- C3: a PAYMENT that would take the balance `b` below zero is rejected: the
result is the failure result with error `Insufficient balance`, and the stored
balance is still `b`. -/
theorem updateWalletAtomic_payment_rejected (s : Store) (cardUid : String) (b amount : Int)
    (reason : Option String) (now : Nat)
    (hb : getWalletBalance s cardUid = some b) (hneg : b + amount < 0) :
    (updateWalletAtomic s cardUid amount "PAYMENT" reason now).2 =
        .fail "Insufficient balance" cardUid ∧
      (updateWalletAtomic s cardUid amount "PAYMENT" reason now).2.success = false ∧
      getWalletBalance (updateWalletAtomic s cardUid amount "PAYMENT" reason now).1 cardUid =
        some b := by
  obtain ⟨w, hw, hwb⟩ := getWalletBalance_eq_some hb
  subst hwb
  rw [updateWalletAtomic_rejected s cardUid amount reason now w hw hneg]
  exact ⟨rfl, rfl, hb⟩

/-- Witness for C3: paying 1000 from the wallet holding 300. -/
theorem updateWalletAtomic_payment_rejected_witness :
    getWalletBalance store300 "X" = some 300 ∧ (300 : Int) + (-1000) < 0 ∧
    (updateWalletAtomic store300 "X" (-1000) "PAYMENT" none 7).2 =
        .fail "Insufficient balance" "X" ∧
      (updateWalletAtomic store300 "X" (-1000) "PAYMENT" none 7).2.success = false ∧
      getWalletBalance (updateWalletAtomic store300 "X" (-1000) "PAYMENT" none 7).1 "X" =
        some 300 :=
  ⟨by decide, by decide,
    updateWalletAtomic_payment_rejected store300 "X" 300 (-1000) none 7
      (by decide) (by decide)⟩

/-- C4, as stated, fails: paying 1000 from the wallet holding 300 appends no
record at all, so in particular no record with status FAILED. -/
theorem updateWalletAtomic_rejected_appends_failed_refuted :
    getWalletBalance store300 "X" = some 300 ∧ (300 : Int) + (-1000) < 0 ∧
      ¬ ∃ t : Transaction,
        (updateWalletAtomic store300 "X" (-1000) "PAYMENT" none 7).1.transactions =
          store300.transactions ++ [t] ∧ t.status = "FAILED" := by
  refine ⟨by decide, by decide, ?_⟩
  rintro ⟨t, ht, -⟩
  have hlen := congrArg List.length ht
  simp [updateWalletAtomic, findWallet, store300] at hlen

/-- C4, amended: a PAYMENT that would take the balance below zero appends no
record; the store, and with it the transaction log, is returned as it was. -/
theorem updateWalletAtomic_rejected_appends_nothing (s : Store) (cardUid : String)
    (b amount : Int) (reason : Option String) (now : Nat)
    (hb : getWalletBalance s cardUid = some b) (hneg : b + amount < 0) :
    (updateWalletAtomic s cardUid amount "PAYMENT" reason now).1.transactions =
        s.transactions ∧
      (updateWalletAtomic s cardUid amount "PAYMENT" reason now).1 = s := by
  obtain ⟨w, hw, hwb⟩ := getWalletBalance_eq_some hb
  subst hwb
  rw [updateWalletAtomic_rejected s cardUid amount reason now w hw hneg]
  exact ⟨rfl, rfl⟩

/-- Witness for the amended C4: paying 1000 from the wallet holding 300. -/
theorem updateWalletAtomic_rejected_appends_nothing_witness :
    getWalletBalance store300 "X" = some 300 ∧ (300 : Int) + (-1000) < 0 ∧
    (updateWalletAtomic store300 "X" (-1000) "PAYMENT" none 7).1.transactions =
        store300.transactions ∧
      (updateWalletAtomic store300 "X" (-1000) "PAYMENT" none 7).1 = store300 :=
  ⟨by decide, by decide,
    updateWalletAtomic_rejected_appends_nothing store300 "X" 300 (-1000) none 7
      (by decide) (by decide)⟩

/-! ## Lemmas on `getOrCreateWallet` -/

theorem getOrCreateWallet_transactions (s : Store) (uid : String) (now : Nat) :
    (getOrCreateWallet s uid now).1.transactions = s.transactions := by
  unfold getOrCreateWallet
  cases findCard s.cards uid <;> cases hw : findWallet s.wallets uid <;> simp [hw]

theorem getOrCreateWallet_wallets_some (s : Store) (uid : String) (now : Nat) (w : Wallet)
    (h : findWallet s.wallets uid = some w) :
    (getOrCreateWallet s uid now).1.wallets = s.wallets ∧
      (getOrCreateWallet s uid now).2 = w := by
  unfold getOrCreateWallet
  cases findCard s.cards uid <;> simp [h]

theorem getOrCreateWallet_wallets_none (s : Store) (uid : String) (now : Nat)
    (h : findWallet s.wallets uid = none) :
    ∃ n : Nat,
      (getOrCreateWallet s uid now).1.wallets =
        s.wallets ++ [{ id := n, cardUid := uid, balance := 0, updatedAt := now }] ∧
      (getOrCreateWallet s uid now).2 =
        { id := n, cardUid := uid, balance := 0, updatedAt := now } := by
  unfold getOrCreateWallet
  cases findCard s.cards uid
  · exact ⟨s.nextId + 1, by simp [h]⟩
  · exact ⟨s.nextId, by simp [h]⟩

theorem findWallet_append_of_some {ws : List Wallet} {uid : String} {w : Wallet}
    (extra : List Wallet) (h : findWallet ws uid = some w) :
    findWallet (ws ++ extra) uid = some w := by
  unfold findWallet at h ⊢
  rw [List.find?_append, h]
  rfl

theorem getOrCreateWallet_keeps_wallet (s : Store) (uid uid' : String) (now : Nat)
    (w : Wallet) (h : findWallet s.wallets uid' = some w) :
    findWallet (getOrCreateWallet s uid now).1.wallets uid' = some w := by
  cases hf : findWallet s.wallets uid with
  | some w0 => rw [(getOrCreateWallet_wallets_some s uid now w0 hf).1]; exact h
  | none =>
    obtain ⟨n, hn, -⟩ := getOrCreateWallet_wallets_none s uid now hf
    rw [hn]
    exact findWallet_append_of_some _ h

theorem getOrCreateWallet_provisions (s : Store) (uid : String) (now : Nat) :
    ∃ w, findWallet (getOrCreateWallet s uid now).1.wallets uid = some w := by
  cases hf : findWallet s.wallets uid with
  | some w0 => exact ⟨w0, getOrCreateWallet_keeps_wallet s uid uid now w0 hf⟩
  | none =>
    obtain ⟨n, hn, -⟩ := getOrCreateWallet_wallets_none s uid now hf
    refine ⟨{ id := n, cardUid := uid, balance := 0, updatedAt := now }, ?_⟩
    rw [hn]
    unfold findWallet at hf ⊢
    rw [List.find?_append, hf]
    simp

/-! ## Non-negative balances -/

theorem updateWalletAtomic_nonneg (s : Store) (cardUid : String) (amount : Int)
    (ty : String) (reason : Option String) (now : Nat)
    (h : NonNegBalances s) (hcase : ty = "PAYMENT" ∨ 0 ≤ amount) :
    NonNegBalances (updateWalletAtomic s cardUid amount ty reason now).1 := by
  cases hf : findWallet s.wallets cardUid with
  | none => rw [updateWalletAtomic_missing s cardUid amount ty reason now hf]; exact h
  | some w =>
    by_cases hg : ty = "PAYMENT" ∧ w.balance + amount < 0
    · obtain ⟨hty, hneg⟩ := hg
      subst hty
      rw [updateWalletAtomic_rejected s cardUid amount reason now w hf hneg]; exact h
    · rw [updateWalletAtomic_committed s cardUid amount ty reason now w hf hg]
      intro w' hw'
      rcases mem_updateOneWallet cardUid (w.balance + amount) now w' s.wallets hw' with h1 | h1
      · exact h w' h1
      · rw [h1]
        have hw0 : 0 ≤ w.balance := h w (findWallet_mem hf)
        rcases hcase with hty | hpos
        · by_contra hlt
          exact hg ⟨hty, by omega⟩
        · omega

/-! ## Declined payments at `POST /pay` -/

/-- C5 (what the code does): when the card holds `b ≥ 0` and `totalAmount > b`,
`POST /pay` leaves the balance at `b` and appends exactly one record for the
card, of amount 0, whose reason states the required and the available amount;
the status written to that record is SUCCESS, not FAILED. -/
theorem payHandler_insufficient_logs_success (s : Store) (uid : String) (b totalAmount : Int)
    (productId : Option String) (quantity : Option Int) (now : Nat)
    (huid : uid ≠ "") (hb : getWalletBalance s uid = some b) (hb0 : 0 ≤ b)
    (hlt : b < totalAmount) :
    getWalletBalance
        (payHandler s
          { uid := some uid, productId := productId, quantity := quantity,
            totalAmount := some totalAmount } now).1 uid = some b ∧
      ∃ t : Transaction,
        (payHandler s
          { uid := some uid, productId := productId, quantity := quantity,
            totalAmount := some totalAmount } now).1.transactions = s.transactions ++ [t] ∧
        t.cardUid = uid ∧ t.type = "PAYMENT" ∧ t.amount = 0 ∧
        t.previousBalance = b ∧ t.newBalance = b ∧
        t.reason = some ("Failed: Insufficient balance. Required: " ++ toString totalAmount ++
          ", Available: " ++ toString b) ∧
        t.status = "SUCCESS" ∧ t.status ≠ "FAILED" := by
  obtain ⟨w, hw, hwb⟩ := getWalletBalance_eq_some hb
  subst hwb
  have hw1 := getOrCreateWallet_keeps_wallet s uid uid now w hw
  have hb1 := getWalletBalance_of_findWallet hw1
  have hv : (uid == "" || totalAmount == 0 || decide (totalAmount ≤ 0)) = false := by
    simp only [Bool.or_eq_false_iff, beq_eq_false_iff_ne, ne_eq, decide_eq_false_iff_not]
    exact ⟨⟨huid, by omega⟩, by omega⟩
  have hlow : balanceBelow (some w.balance) totalAmount = true := by
    simpa [balanceBelow] using hlt
  have hok : ¬ ("PAYMENT" = "PAYMENT" ∧ w.balance + 0 < 0) := by
    rintro ⟨-, h⟩; omega
  simp only [payHandler, hv, Bool.false_eq_true, ↓reduceIte, hb1, hlow, renderBalance]
  rw [updateWalletAtomic_committed _ uid 0 "PAYMENT" _ now w hw1 hok]
  refine ⟨?_,
    { id := (getOrCreateWallet s uid now).1.nextId, cardUid := uid, type := "PAYMENT",
      amount := ((0 : Int).natAbs : Int), previousBalance := w.balance,
      newBalance := w.balance + 0, status := "SUCCESS",
      reason := some ("Failed: Insufficient balance. Required: " ++ toString totalAmount ++
        ", Available: " ++ toString w.balance),
      createdAt := now }, ?_, rfl, rfl, rfl, rfl, ?_, rfl, rfl, ?_⟩
  · have h1 := findWallet_updateOne_self uid (w.balance + 0) now w _ hw1
    unfold getWalletBalance
    simp only [add_zero] at h1 ⊢
    rw [h1]
    rfl
  · simp only [getOrCreateWallet_transactions]
  · exact add_zero w.balance
  · show "SUCCESS" ≠ "FAILED"
    decide

/-- Witness for C5, at the failing input: paying 1000 with the card holding 300. -/
theorem payHandler_insufficient_logs_success_witness :
    "X" ≠ "" ∧ getWalletBalance store300 "X" = some 300 ∧ (0 : Int) ≤ 300 ∧
    (300 : Int) < 1000 ∧
    getWalletBalance
        (payHandler store300
          { uid := some "X", productId := some "p1", quantity := some 2,
            totalAmount := some 1000 } 7).1 "X" = some 300 ∧
      ∃ t : Transaction,
        (payHandler store300
          { uid := some "X", productId := some "p1", quantity := some 2,
            totalAmount := some 1000 } 7).1.transactions = store300.transactions ++ [t] ∧
        t.cardUid = "X" ∧ t.type = "PAYMENT" ∧ t.amount = 0 ∧
        t.previousBalance = 300 ∧ t.newBalance = 300 ∧
        t.reason = some ("Failed: Insufficient balance. Required: " ++ toString (1000 : Int) ++
          ", Available: " ++ toString (300 : Int)) ∧
        t.status = "SUCCESS" ∧ t.status ≠ "FAILED" :=
  ⟨by decide, by decide, by decide, by decide,
    payHandler_insufficient_logs_success store300 "X" 300 1000 (some "p1") (some 2) 7
      (by decide) (by decide) (by decide) (by decide)⟩

/-! ## Non-negative balances: the guard of the mutation -/

/-- C6, as stated, fails: a TOPUP of `-1000` on the wallet holding 300 is
committed and leaves the balance at `-700`. -/
theorem updateWalletAtomic_nonneg_refuted :
    NonNegBalances store300 ∧
      ¬ NonNegBalances (updateWalletAtomic store300 "X" (-1000) "TOPUP" none 7).1 ∧
      getWalletBalance (updateWalletAtomic store300 "X" (-1000) "TOPUP" none 7).1 "X" =
        some (-700) := by
  decide

/-- C6, amended: `updateWalletAtomic` keeps every balance non-negative when the
type is PAYMENT (any amount) or the amount is non-negative (any type). -/
theorem updateWalletAtomic_preserves_nonneg (s : Store) (cardUid : String) (amount : Int)
    (ty : String) (reason : Option String) (now : Nat)
    (h : NonNegBalances s) (hcase : ty = "PAYMENT" ∨ 0 ≤ amount) :
    NonNegBalances (updateWalletAtomic s cardUid amount ty reason now).1 :=
  updateWalletAtomic_nonneg s cardUid amount ty reason now h hcase

/-- Witness for the amended C6: an over-large PAYMENT on the wallet holding 300. -/
theorem updateWalletAtomic_preserves_nonneg_witness :
    NonNegBalances store300 ∧ ("PAYMENT" = "PAYMENT" ∨ (0 : Int) ≤ -1000) ∧
      NonNegBalances (updateWalletAtomic store300 "X" (-1000) "PAYMENT" none 7).1 :=
  ⟨by decide, by decide,
    updateWalletAtomic_preserves_nonneg store300 "X" (-1000) "PAYMENT" none 7
      (by decide) (by decide)⟩

/-! ## Records against balances -/

/-- C8, as stated, fails: a TOPUP of `-100` on the wallet holding 300 records
amount 100 with balances 300 and 200, and `200 ≠ 300 + 100`. -/
theorem updateWalletAtomic_signed_amount_refuted :
    ∃ t : Transaction,
      (updateWalletAtomic store300 "X" (-100) "TOPUP" none 7).1.transactions =
        store300.transactions ++ [t] ∧
      t.status = "SUCCESS" ∧ t.type = "TOPUP" ∧ t.amount = 100 ∧
      t.previousBalance = 300 ∧ t.newBalance = 200 ∧
      t.newBalance ≠ t.previousBalance + signedAmount t :=
  ⟨{ id := 2, cardUid := "X", type := "TOPUP", amount := 100, previousBalance := 300,
     newBalance := 200, status := "SUCCESS", reason := none, createdAt := 7 },
    by decide, by decide, by decide, by decide, by decide, by decide, by decide⟩

/-! ## Provisioning -/

theorem findCard_eq_none_of_absent {cs : List Card} {uid : String}
    (h : ∀ c ∈ cs, c.uid ≠ uid) : findCard cs uid = none := by
  unfold findCard
  rw [List.find?_eq_none]
  intro c hc
  simpa using h c hc

theorem getOrCreateWallet_existing (s : Store) (uid : String) (now : Nat)
    (c : Card) (w : Wallet)
    (hc : findCard s.cards uid = some c) (hw : findWallet s.wallets uid = some w) :
    getOrCreateWallet s uid now = (s, w) := by
  simp [getOrCreateWallet, hc, hw]

theorem getOrCreateWallet_absent (s : Store) (uid : String) (now : Nat)
    (hc : ∀ c ∈ s.cards, c.uid ≠ uid) (hw : ∀ w ∈ s.wallets, w.cardUid ≠ uid) :
    getOrCreateWallet s uid now =
      ({ cards := s.cards ++
           [{ id := s.nextId, uid := uid, owner := none, createdAt := now }]
         wallets := s.wallets ++
           [{ id := s.nextId + 1, cardUid := uid, balance := 0, updatedAt := now }]
         transactions := s.transactions
         nextId := s.nextId + 1 + 1 },
        { id := s.nextId + 1, cardUid := uid, balance := 0, updatedAt := now }) := by
  simp [getOrCreateWallet, findCard_eq_none_of_absent hc, findWallet_eq_none_of_absent hw]

theorem provisionMany_existing (uid : String) (c : Card) (w : Wallet) :
    ∀ (nows : List Nat) (s : Store), findCard s.cards uid = some c →
      findWallet s.wallets uid = some w →
      provisionMany s uid nows = (s, List.replicate nows.length w) := by
  intro nows
  induction nows with
  | nil => intro s _ _; rfl
  | cons now rest ih =>
    intro s hc hw
    simp only [provisionMany, getOrCreateWallet_existing s uid now c w hc hw, ih s hc hw,
      List.length_cons, List.replicate_succ]

/-- C10: when no card and no wallet with the given uid is in the store, calling
`getOrCreateWallet(uid)` `N ≥ 1` times in succession leaves exactly one card
with that uid (with no owner) and exactly one wallet with that card uid, and
each of the `N` calls returns a wallet of that card with balance 0. -/
theorem provisionMany_idempotent (s : Store) (uid : String) (nows : List Nat)
    (hc : ∀ c ∈ s.cards, c.uid ≠ uid) (hw : ∀ w ∈ s.wallets, w.cardUid ≠ uid)
    (hN : 1 ≤ nows.length) :
    cardCount (provisionMany s uid nows).1 uid = 1 ∧
      (∀ c ∈ (provisionMany s uid nows).1.cards, c.uid = uid → c.owner = none) ∧
      walletCount (provisionMany s uid nows).1 uid = 1 ∧
      (provisionMany s uid nows).2.length = nows.length ∧
      ∀ w ∈ (provisionMany s uid nows).2, w.cardUid = uid ∧ w.balance = 0 := by
  cases nows with
  | nil => simp at hN
  | cons now rest =>
    have hfc : findCard
        (s.cards ++ [{ id := s.nextId, uid := uid, owner := none, createdAt := now }]) uid =
        some { id := s.nextId, uid := uid, owner := none, createdAt := now } := by
      have h0 := findCard_eq_none_of_absent hc
      unfold findCard at h0 ⊢
      rw [List.find?_append, h0]
      simp
    have hfw : findWallet
        (s.wallets ++ [{ id := s.nextId + 1, cardUid := uid, balance := 0, updatedAt := now }])
        uid = some { id := s.nextId + 1, cardUid := uid, balance := 0, updatedAt := now } := by
      have h0 := findWallet_eq_none_of_absent hw
      unfold findWallet at h0 ⊢
      rw [List.find?_append, h0]
      simp
    have hcs : s.cards.filter (fun c => c.uid == uid) = [] := by
      rw [List.filter_eq_nil_iff]
      intro c hcm
      simpa using hc c hcm
    have hws : s.wallets.filter (fun w => w.cardUid == uid) = [] := by
      rw [List.filter_eq_nil_iff]
      intro w hwm
      simpa using hw w hwm
    simp only [provisionMany, getOrCreateWallet_absent s uid now hc hw]
    rw [provisionMany_existing uid _ _ rest _ hfc hfw]
    refine ⟨?_, ?_, ?_, ?_, ?_⟩
    · simp [cardCount, List.filter_append, hcs]
    · intro c hcm hcu
      rcases List.mem_append.mp hcm with h1 | h1
      · exact absurd hcu (hc c h1)
      · have : c = { id := s.nextId, uid := uid, owner := none, createdAt := now } := by
          simpa using h1
        rw [this]
    · simp [walletCount, List.filter_append, hws]
    · simp
    · intro w hwm
      have : w = { id := s.nextId + 1, cardUid := uid, balance := 0, updatedAt := now } := by
        rcases List.mem_cons.mp hwm with h1 | h1
        · exact h1
        · exact (List.mem_replicate.mp h1).2
      rw [this]
      exact ⟨rfl, rfl⟩

/-- Witness for C10: three calls for the unknown card `Y`. -/
theorem provisionMany_idempotent_witness :
    (∀ c ∈ store300.cards, c.uid ≠ "Y") ∧ (∀ w ∈ store300.wallets, w.cardUid ≠ "Y") ∧
    1 ≤ [4, 5, 6].length ∧
    cardCount (provisionMany store300 "Y" [4, 5, 6]).1 "Y" = 1 ∧
      (∀ c ∈ (provisionMany store300 "Y" [4, 5, 6]).1.cards, c.uid = "Y" → c.owner = none) ∧
      walletCount (provisionMany store300 "Y" [4, 5, 6]).1 "Y" = 1 ∧
      (provisionMany store300 "Y" [4, 5, 6]).2.length = [4, 5, 6].length ∧
      ∀ w ∈ (provisionMany store300 "Y" [4, 5, 6]).2, w.cardUid = "Y" ∧ w.balance = 0 :=
  ⟨by decide, by decide, by decide,
    provisionMany_idempotent store300 "Y" [4, 5, 6] (by decide) (by decide) (by decide)⟩

/-! ## Frame of `getOrCreateWallet` and of `updateWalletAtomic` -/

/-- C17: when the store already holds a card and a wallet for `uid`, the
wallet having balance `b`, `getOrCreateWallet(uid)` returns that wallet, with
balance `b`, and returns the store as it was (nothing is reset or added). -/
theorem getOrCreateWallet_leaves_existing (s : Store) (uid : String) (now : Nat)
    (c : Card) (w : Wallet) (b : Int)
    (hc : findCard s.cards uid = some c) (hw : findWallet s.wallets uid = some w)
    (hb : w.balance = b) :
    (getOrCreateWallet s uid now).2 = w ∧
      (getOrCreateWallet s uid now).2.balance = b ∧
      (getOrCreateWallet s uid now).1 = s := by
  rw [getOrCreateWallet_existing s uid now c w hc hw]
  exact ⟨rfl, hb, rfl⟩

/-- Witness for C17: card `X` of `store300` is looked up again. -/
theorem getOrCreateWallet_leaves_existing_witness :
    findCard store300.cards "X" =
      some { id := 0, uid := "X", owner := none, createdAt := 1 } ∧
    findWallet store300.wallets "X" =
      some { id := 1, cardUid := "X", balance := 300, updatedAt := 1 } ∧
    (getOrCreateWallet store300 "X" 9).2 =
      { id := 1, cardUid := "X", balance := 300, updatedAt := 1 } ∧
    (getOrCreateWallet store300 "X" 9).2.balance = 300 ∧
    (getOrCreateWallet store300 "X" 9).1 = store300 :=
  ⟨by decide, by decide,
    getOrCreateWallet_leaves_existing store300 "X" 9
      { id := 0, uid := "X", owner := none, createdAt := 1 }
      { id := 1, cardUid := "X", balance := 300, updatedAt := 1 } 300
      (by decide) (by decide) rfl⟩

theorem filter_updateOneWallet_other (uid : String) (bal : Int) (now : Nat) :
    ∀ ws : List Wallet,
      (updateOneWallet ws uid bal now).filter (fun w => w.cardUid != uid) =
        ws.filter (fun w => w.cardUid != uid) := by
  intro ws
  induction ws with
  | nil => rfl
  | cons x xs ih =>
    cases hx : (x.cardUid == uid)
    · simp only [updateOneWallet, hx, Bool.false_eq_true, ↓reduceIte, List.filter_cons,
        bne, Bool.not_false]
      simp only [bne] at ih
      rw [ih]
    · simp only [updateOneWallet, hx, ↓reduceIte, List.filter_cons, bne, Bool.not_true,
        Bool.false_eq_true]

theorem updateWalletAtomic_store_cases (s : Store) (cardUid : String) (amount : Int)
    (ty : String) (reason : Option String) (now : Nat) :
    (updateWalletAtomic s cardUid amount ty reason now).1 = s ∨
      ∃ (bal : Int) (t : Transaction),
        (updateWalletAtomic s cardUid amount ty reason now).1 =
          { s with
              wallets := updateOneWallet s.wallets cardUid bal now
              transactions := s.transactions ++ [t]
              nextId := s.nextId + 1 } := by
  cases hf : findWallet s.wallets cardUid with
  | none =>
    left; rw [updateWalletAtomic_missing s cardUid amount ty reason now hf]
  | some w =>
    by_cases hg : ty = "PAYMENT" ∧ w.balance + amount < 0
    · obtain ⟨hty, hneg⟩ := hg
      subst hty
      left; rw [updateWalletAtomic_rejected s cardUid amount reason now w hf hneg]
    · right
      rw [updateWalletAtomic_committed s cardUid amount ty reason now w hf hg]
      exact ⟨_, _, rfl⟩

/-- C15: `updateWalletAtomic` only appends to the transaction log (the records
present before the call form a prefix of the log after it), leaves the cards
alone, leaves every wallet document of another card unchanged, and so leaves
the balance of every other card unchanged. -/
theorem updateWalletAtomic_frame (s : Store) (cardUid : String) (amount : Int)
    (ty : String) (reason : Option String) (now : Nat) :
    s.transactions <+: (updateWalletAtomic s cardUid amount ty reason now).1.transactions ∧
      (updateWalletAtomic s cardUid amount ty reason now).1.cards = s.cards ∧
      (updateWalletAtomic s cardUid amount ty reason now).1.wallets.filter
          (fun w => w.cardUid != cardUid) =
        s.wallets.filter (fun w => w.cardUid != cardUid) ∧
      ∀ other : String, other ≠ cardUid →
        getWalletBalance (updateWalletAtomic s cardUid amount ty reason now).1 other =
          getWalletBalance s other := by
  rcases updateWalletAtomic_store_cases s cardUid amount ty reason now with h | ⟨bal, t, h⟩
  · rw [h]
    exact ⟨List.prefix_refl _, rfl, rfl, fun _ _ => rfl⟩
  · rw [h]
    refine ⟨List.prefix_append _ _, rfl, filter_updateOneWallet_other cardUid bal now _, ?_⟩
    intro other hne
    unfold getWalletBalance
    simp only [findWallet_updateOne_other cardUid other bal now hne s.wallets]

/-- Witness for C15: a top-up of `X` in the store that also holds card `Y`
leaves the balance of `Y` at 50. -/
theorem updateWalletAtomic_frame_witness :
    "Y" ≠ "X" ∧
    getWalletBalance (updateWalletAtomic storeXY "X" 500 "TOPUP" none 7).1 "Y" =
      getWalletBalance storeXY "Y" ∧
    getWalletBalance storeXY "Y" = some 50 :=
  ⟨by decide,
    (updateWalletAtomic_frame storeXY "X" 500 "TOPUP" none 7).2.2.2 "Y" (by decide),
    by decide⟩

/-! ## Transaction history -/

theorem getTransactionHistory_some_pos (s : Store) (cardUid : String) (limit : Nat)
    (hpos : 0 < limit) :
    getTransactionHistory s cardUid (some limit) =
      ((s.transactions.filter (fun t => t.cardUid == cardUid)).insertionSort
        newestFirst).take limit := by
  cases limit with
  | zero => exact absurd hpos (Nat.lt_irrefl 0)
  | succ n => rfl

/-- C12: for a positive limit, `getTransactionHistory(cardUid, limit)` returns
at most `limit` records (exactly `min limit k` when the card has `k`), all of
that card, ordered newest first by `createdAt`; together with the records of
the card it leaves out they are all the records of the card, and none of those
left out is newer than a returned one. With the limit omitted at most 10
records are returned. The query only reads the store. -/
theorem getTransactionHistory_contract (s : Store) (cardUid : String) (limit : Nat)
    (hpos : 0 < limit) :
    (getTransactionHistory s cardUid (some limit)).length ≤ limit ∧
      (getTransactionHistory s cardUid (some limit)).length =
        min limit (s.transactions.filter (fun t => t.cardUid == cardUid)).length ∧
      (∀ t ∈ getTransactionHistory s cardUid (some limit), t.cardUid = cardUid) ∧
      (getTransactionHistory s cardUid (some limit)).Pairwise newestFirst ∧
      (∃ older : List Transaction,
        (getTransactionHistory s cardUid (some limit) ++ older).Perm
          (s.transactions.filter (fun t => t.cardUid == cardUid)) ∧
        ∀ t ∈ getTransactionHistory s cardUid (some limit), ∀ u ∈ older,
          u.createdAt ≤ t.createdAt) ∧
      (getTransactionHistory s cardUid none).length ≤ 10 := by
  rw [getTransactionHistory_some_pos s cardUid limit hpos]
  have hsorted : ((s.transactions.filter (fun t => t.cardUid == cardUid)).insertionSort
      newestFirst).Pairwise newestFirst :=
    List.sorted_insertionSort newestFirst _
  have hperm := List.perm_insertionSort newestFirst
    (s.transactions.filter (fun t => t.cardUid == cardUid))
  refine ⟨?_, ?_, ?_, ?_, ?_, ?_⟩
  · rw [List.length_take]; exact Nat.min_le_left _ _
  · rw [List.length_take, List.length_insertionSort]
  · intro t ht
    have h1 : t ∈ s.transactions.filter (fun t => t.cardUid == cardUid) :=
      hperm.subset (List.mem_of_mem_take ht)
    simpa using (List.mem_filter.mp h1).2
  · exact hsorted.sublist (List.take_sublist _ _)
  · refine ⟨((s.transactions.filter (fun t => t.cardUid == cardUid)).insertionSort
      newestFirst).drop limit, ?_, ?_⟩
    · rw [List.take_append_drop]; exact hperm
    · intro t ht u hu
      have hsplit := hsorted
      rw [← List.take_append_drop limit
        ((s.transactions.filter (fun t => t.cardUid == cardUid)).insertionSort
          newestFirst)] at hsplit
      exact (List.pairwise_append.mp hsplit).2.2 t ht u hu
  · show (List.take 10 _).length ≤ 10
    rw [List.length_take]; exact Nat.min_le_left _ _

/-- Witness for C12: the two newest of the four records of card `X`. -/
theorem getTransactionHistory_contract_witness :
    0 < 2 ∧
    (getTransactionHistory storeHistory "X" (some 2)).map (fun t => t.createdAt) = [8, 7] ∧
    (getTransactionHistory storeHistory "X" (some 2)).length ≤ 2 ∧
      (getTransactionHistory storeHistory "X" (some 2)).length =
        min 2 (storeHistory.transactions.filter (fun t => t.cardUid == "X")).length ∧
      (∀ t ∈ getTransactionHistory storeHistory "X" (some 2), t.cardUid = "X") ∧
      (getTransactionHistory storeHistory "X" (some 2)).Pairwise newestFirst ∧
      (∃ older : List Transaction,
        (getTransactionHistory storeHistory "X" (some 2) ++ older).Perm
          (storeHistory.transactions.filter (fun t => t.cardUid == "X")) ∧
        ∀ t ∈ getTransactionHistory storeHistory "X" (some 2), ∀ u ∈ older,
          u.createdAt ≤ t.createdAt) ∧
      (getTransactionHistory storeHistory "X" none).length ≤ 10 :=
  ⟨by decide, by decide,
    getTransactionHistory_contract storeHistory "X" 2 (by decide)⟩

/-! ## Validation of amounts -/

theorem topupRequest_ofField (s : Store) (uid : Option String) (amount : Option Int)
    (now : Nat) :
    topupRequest s uid (JsValue.ofField amount) now =
      topupHandler s { uid := uid, amount := amount } now := by
  cases uid with
  | none => cases amount <;> rfl
  | some u =>
    cases amount with
    | none => rfl
    | some n =>
      simp only [topupRequest, topupHandler, JsValue.ofField, JsValue.toNumber,
        JsValue.truthy, bne, Bool.not_not]

theorem topupHandler_rejects_invalid_amount (s : Store) (uid : Option String)
    (amount : Option Int) (now : Nat) (h : ∀ n, amount = some n → n ≤ 0) :
    topupHandler s { uid := uid, amount := amount } now =
      (s, .badRequest "Invalid UID or amount") := by
  cases uid with
  | none => rfl
  | some u =>
    cases amount with
    | none => rfl
    | some n =>
      have hn : decide (n ≤ 0) = true := by simpa using h n rfl
      simp only [topupHandler, hn, Bool.or_true, ↓reduceIte]

theorem payHandler_rejects_invalid_amount (s : Store) (uid productId : Option String)
    (quantity totalAmount : Option Int) (now : Nat)
    (h : ∀ n, totalAmount = some n → n ≤ 0) :
    payHandler s
        { uid := uid, productId := productId, quantity := quantity,
          totalAmount := totalAmount } now =
      (s, .badRequest "Invalid UID or amount") := by
  cases uid with
  | none => rfl
  | some u =>
    cases totalAmount with
    | none => rfl
    | some n =>
      have hn : decide (n ≤ 0) = true := by simpa using h n rfl
      simp only [payHandler, hn, Bool.or_true, ↓reduceIte]

theorem topupRequest_rejects_falsy_or_nonpositive (s : Store) (uid : Option String)
    (amount : JsValue) (now : Nat)
    (h : amount.truthy = false ∨ ∃ n, amount.toNumber = some n ∧ n ≤ 0) :
    topupRequest s uid amount now = (s, .badRequest "Invalid UID or amount") := by
  cases uid with
  | none => rfl
  | some u =>
    cases hn : amount.toNumber with
    | none => simp only [topupRequest, hn]
    | some n =>
      have hc : (u == "" || !amount.truthy || decide (n ≤ 0)) = true := by
        rcases h with h | ⟨m, hm, hle⟩
        · simp [h]
        · rw [hn] at hm
          have hmn : n = m := Option.some.inj hm
          subst hmn
          simp [hle]
      simp only [topupRequest, hn, hc, ↓reduceIte]

/-- C11 (what the code does at the failing input): `POST /topup` with the
non-numeric amount `true` for the unknown card `X` is not rejected. The check
`!amount || amount <= 0` lets it through, a card and a wallet are created, the
wallet is credited 1 and a record of amount 1 is appended. -/
theorem topupRequest_accepts_boolean_amount :
    topupRequest emptyStore (some "X") (.bool true) 7 =
      ({ cards := [{ id := 0, uid := "X", owner := none, createdAt := 7 }]
         wallets := [{ id := 1, cardUid := "X", balance := 1, updatedAt := 7 }]
         transactions :=
           [{ id := 2, cardUid := "X", type := "TOPUP", amount := 1,
              previousBalance := 0, newBalance := 1, status := "SUCCESS",
              reason := some "Admin top-up", createdAt := 7 }]
         nextId := 3 },
        .topupOk (.ok "X" 0 1 2 7)) ∧
      topupRequest emptyStore (some "X") (.bool true) 7 ≠
        (emptyStore, .badRequest "Invalid UID or amount") := by
  decide

/-! ## Whole and fractional amounts -/

namespace Fractional

/-- C13, as stated, fails: `POST /topup` accepts the amount `1/2` for the new
card `X`; the wallet then holds `1/2` and the record carries amount `1/2`,
which is not a whole number. -/
theorem topupHandler_stores_fraction :
    (topupHandler emptyStore (some "X") (some (1 / 2)) 7).wallets =
        [{ id := 1, cardUid := "X", balance := 1 / 2, updatedAt := 7 }] ∧
      (topupHandler emptyStore (some "X") (some (1 / 2)) 7).transactions =
        [{ id := 2, cardUid := "X", type := "TOPUP", amount := 1 / 2,
           previousBalance := 0, newBalance := 1 / 2, status := "SUCCESS",
           reason := some "Admin top-up", createdAt := 7 }] ∧
      ¬ IsWhole (1 / 2 : ℚ) := by
  refine ⟨?_, ?_, ?_⟩
  · simp [topupHandler, getOrCreateWallet, updateWalletAtomic, findCard, findWallet,
      emptyStore, updateOneWallet]
    norm_num
  · simp [topupHandler, getOrCreateWallet, updateWalletAtomic, findCard, findWallet,
      emptyStore, updateOneWallet]
    norm_num [abs_of_pos]
  · unfold IsWhole
    norm_num

end Fractional

/-! ## JavaScript numbers: rounding -/

namespace Ieee

theorem excessBits_small (m : Nat) (h : m < 2 ^ 53) : excessBits m m = 0 := by
  cases m with
  | zero => rfl
  | succ n => simp only [excessBits, h, ↓reduceIte]

theorem roundMag_exact (m : Nat) (h : m ≤ maxExact) : roundMag m = m := by
  unfold maxExact at h
  by_cases hlt : m < 2 ^ 53
  · simp only [roundMag, excessBits_small m hlt, ↓reduceIte]
  · have hm : m = 9007199254740992 := by omega
    subst hm
    decide

theorem roundInt_exact (n : Int) (h : n.natAbs ≤ maxExact) : roundInt n = .fin n := by
  have hm := roundMag_exact n.natAbs h
  have hb : ¬ overflowBound ≤ n.natAbs := by
    have h1 : maxExact < overflowBound := by decide
    omega
  unfold roundInt
  rw [hm]
  simp only [hb, ↓reduceIte]
  split <;> congr 1 <;> omega

theorem roundInt_nonneg (n : Int) (h : 0 ≤ n) : JsNum.le (.fin 0) (roundInt n) = true := by
  have hn : ¬ n < 0 := by omega
  unfold roundInt
  by_cases hov : overflowBound ≤ roundMag n.natAbs
  · rw [if_pos hov, if_neg hn]; rfl
  · rw [if_neg hov, if_neg hn]
    simp only [JsNum.le, decide_eq_true_eq]
    omega

/-! ## Lemmas on the collection primitives over JavaScript numbers -/

theorem ieee_findWallet_mem {ws : List Wallet} {uid : String} {w : Wallet}
    (h : findWallet ws uid = some w) : w ∈ ws :=
  List.mem_of_find?_eq_some h

theorem ieee_findWallet_updateOne_self (uid : String) (bal : JsNum) (now : Nat)
    (w : Wallet) :
    ∀ ws : List Wallet, findWallet ws uid = some w →
      findWallet (updateOneWallet ws uid bal now) uid =
        some { w with balance := bal, updatedAt := now } := by
  intro ws
  induction ws with
  | nil => intro h; simp [findWallet] at h
  | cons x xs ih =>
    intro h
    cases hb : (x.cardUid == uid)
    · have h' : findWallet xs uid = some w := by
        simpa [findWallet, List.find?_cons, hb] using h
      have h2 := ih h'
      simp only [findWallet, updateOneWallet, hb, Bool.false_eq_true, ↓reduceIte,
        List.find?_cons] at h2 ⊢
      exact h2
    · have hw : x = w := by
        simpa [findWallet, List.find?_cons, hb] using h
      subst hw
      simp only [findWallet, updateOneWallet, hb, ↓reduceIte, List.find?_cons]

theorem ieee_findWallet_updateOne_other (uid other : String) (bal : JsNum) (now : Nat)
    (hne : other ≠ uid) :
    ∀ ws : List Wallet,
      findWallet (updateOneWallet ws uid bal now) other = findWallet ws other := by
  intro ws
  induction ws with
  | nil => rfl
  | cons x xs ih =>
    cases hb : (x.cardUid == uid)
    · simp only [findWallet, updateOneWallet, hb, Bool.false_eq_true, ↓reduceIte,
        List.find?_cons] at ih ⊢
      cases hy : (x.cardUid == other)
      · simpa [hy] using ih
      · simp [hy]
    · have hx : x.cardUid = uid := by simpa using hb
      have hb' : (x.cardUid == other) = false := by
        simp only [beq_eq_false_iff_ne, ne_eq]
        rw [hx]; exact fun e => hne e.symm
      simp only [findWallet, updateOneWallet, hb, ↓reduceIte, List.find?_cons, hb']

theorem ieee_mem_updateOneWallet (uid : String) (bal : JsNum) (now : Nat) (w' : Wallet) :
    ∀ ws : List Wallet, w' ∈ updateOneWallet ws uid bal now →
      w' ∈ ws ∨ w'.balance = bal := by
  intro ws
  induction ws with
  | nil => intro h; simp [updateOneWallet] at h
  | cons x xs ih =>
    intro h
    cases hx : (x.cardUid == uid)
    · simp only [updateOneWallet, hx, Bool.false_eq_true, ↓reduceIte, List.mem_cons] at h
      rcases h with h | h
      · left; simp [h]
      · rcases ih h with h1 | h1
        · left; simp [h1]
        · right; exact h1
    · simp only [updateOneWallet, hx, ↓reduceIte, List.mem_cons] at h
      rcases h with h | h
      · right; rw [h]
      · left; simp [h]

theorem ieee_getWalletBalance_eq_some {s : Store} {uid : String} {b : JsNum}
    (h : getWalletBalance s uid = some b) :
    ∃ w, findWallet s.wallets uid = some w ∧ w.balance = b := by
  unfold getWalletBalance at h
  cases hf : findWallet s.wallets uid with
  | none => simp [hf] at h
  | some w => exact ⟨w, rfl, by simpa [hf] using h⟩

theorem ieee_getWalletBalance_of_findWallet {s : Store} {uid : String} {w : Wallet}
    (h : findWallet s.wallets uid = some w) : getWalletBalance s uid = some w.balance := by
  simp [getWalletBalance, h]

theorem ieee_updateWalletAtomic_missing (s : Store) (cardUid : String) (amount : JsNum)
    (ty : String) (reason : Option String) (now : Nat)
    (h : findWallet s.wallets cardUid = none) :
    updateWalletAtomic s cardUid amount ty reason now =
      (s, .fail ("Wallet not found for card " ++ cardUid) cardUid) := by
  simp [updateWalletAtomic, h]

theorem ieee_updateWalletAtomic_rejected (s : Store) (cardUid : String) (amount : JsNum)
    (ty : String) (reason : Option String) (now : Nat) (w : Wallet)
    (h : findWallet s.wallets cardUid = some w)
    (hg : ty = "PAYMENT" ∧ (w.balance.add amount).lt (.fin 0) = true) :
    updateWalletAtomic s cardUid amount ty reason now =
      (s, .fail "Insufficient balance" cardUid) := by
  simp only [updateWalletAtomic, h]
  rw [if_pos hg]

theorem ieee_updateWalletAtomic_committed (s : Store) (cardUid : String) (amount : JsNum)
    (ty : String) (reason : Option String) (now : Nat) (w : Wallet)
    (h : findWallet s.wallets cardUid = some w)
    (hok : ¬ (ty = "PAYMENT" ∧ (w.balance.add amount).lt (.fin 0) = true)) :
    updateWalletAtomic s cardUid amount ty reason now =
      ({ s with
          wallets := updateOneWallet s.wallets cardUid (w.balance.add amount) now
          transactions := s.transactions ++
            [{ id := s.nextId, cardUid := cardUid, type := ty,
               amount := amount.abs, previousBalance := w.balance,
               newBalance := w.balance.add amount, status := "SUCCESS",
               reason := reason, createdAt := now }]
          nextId := s.nextId + 1 },
        .ok cardUid w.balance (w.balance.add amount) s.nextId now) := by
  simp only [updateWalletAtomic, h]
  rw [if_neg hok]

theorem add_fin_exact (b amount : Int) (h : (b + amount).natAbs ≤ maxExact) :
    JsNum.add (.fin b) (.fin amount) = .fin (b + amount) := by
  show roundInt (b + amount) = .fin (b + amount)
  exact roundInt_exact _ h

/-! ## Contract of `updateWalletAtomic` over JavaScript numbers -/

/-- C1, as stated, fails: a TOPUP of 1 on the balance `2 ^ 53` is committed, but
the sum is rounded: the returned and stored new balance is `2 ^ 53`, which is
not `b + amount`. -/
theorem updateWalletAtomic_sum_rounded :
    getWalletBalance storeBig "X" = some (.fin 9007199254740992) ∧
      (updateWalletAtomic storeBig "X" (.fin 1) "TOPUP" none 7).2 =
        .ok "X" (.fin 9007199254740992) (.fin 9007199254740992) 2 7 ∧
      getWalletBalance (updateWalletAtomic storeBig "X" (.fin 1) "TOPUP" none 7).1 "X" =
        some (.fin 9007199254740992) ∧
      (9007199254740992 : Int) + 1 ≠ 9007199254740992 := by
  decide

/-- C1, amended: when the wallet of `cardUid` holds the integer `b`, the amount
is an integer, `b + amount` is of magnitude at most `2 ^ 53` (so the sum is not
rounded), and the call is not a PAYMENT with `b + amount < 0`, then
`updateWalletAtomic` returns the success result (same card, previous balance
`b`, new balance `b + amount`, the id of the record it appended), the stored
balance becomes `b + amount`, and exactly one record is appended, with status
SUCCESS and those two balances. -/
theorem updateWalletAtomic_commit_exact (s : Store) (cardUid : String) (b amount : Int)
    (ty : String) (reason : Option String) (now : Nat)
    (hb : getWalletBalance s cardUid = some (.fin b))
    (hexact : (b + amount).natAbs ≤ maxExact)
    (hok : ¬ (ty = "PAYMENT" ∧ b + amount < 0)) :
    ∃ t : Transaction,
      (updateWalletAtomic s cardUid (.fin amount) ty reason now).2 =
        .ok cardUid (.fin b) (.fin (b + amount)) t.id now ∧
      (updateWalletAtomic s cardUid (.fin amount) ty reason now).2.success = true ∧
      getWalletBalance (updateWalletAtomic s cardUid (.fin amount) ty reason now).1 cardUid =
        some (.fin (b + amount)) ∧
      (updateWalletAtomic s cardUid (.fin amount) ty reason now).1.transactions =
        s.transactions ++ [t] ∧
      t.id = s.nextId ∧ t.cardUid = cardUid ∧ t.status = "SUCCESS" ∧
      t.previousBalance = .fin b ∧ t.newBalance = .fin (b + amount) := by
  obtain ⟨w, hw, hwb⟩ := ieee_getWalletBalance_eq_some hb
  have hadd : w.balance.add (.fin amount) = .fin (b + amount) := by
    rw [hwb]; exact add_fin_exact b amount hexact
  have hguard : ¬ (ty = "PAYMENT" ∧ (w.balance.add (.fin amount)).lt (.fin 0) = true) := by
    rw [hadd]
    simp only [JsNum.lt, decide_eq_true_eq]
    exact hok
  rw [ieee_updateWalletAtomic_committed s cardUid (.fin amount) ty reason now w hw hguard]
  rw [hadd, hwb]
  refine ⟨{ id := s.nextId, cardUid := cardUid, type := ty, amount := (JsNum.fin amount).abs,
            previousBalance := .fin b, newBalance := .fin (b + amount), status := "SUCCESS",
            reason := reason, createdAt := now }, rfl, rfl, ?_, rfl, rfl, rfl, rfl, rfl, rfl⟩
  have h1 := ieee_findWallet_updateOne_self cardUid (.fin (b + amount)) now w s.wallets hw
  unfold getWalletBalance
  simp only [h1, Option.map_some']

/-- Witness for the amended C1: a top-up of 500 on the wallet holding 300. -/
theorem updateWalletAtomic_commit_exact_witness :
    getWalletBalance store300 "X" = some (.fin 300) ∧
    ((300 : Int) + 500).natAbs ≤ maxExact ∧
    ¬ ("TOPUP" = "PAYMENT" ∧ (300 : Int) + 500 < 0) ∧
    ∃ t : Transaction,
      (updateWalletAtomic store300 "X" (.fin 500) "TOPUP" none 7).2 =
        .ok "X" (.fin 300) (.fin (300 + 500)) t.id 7 ∧
      (updateWalletAtomic store300 "X" (.fin 500) "TOPUP" none 7).2.success = true ∧
      getWalletBalance (updateWalletAtomic store300 "X" (.fin 500) "TOPUP" none 7).1 "X" =
        some (.fin (300 + 500)) ∧
      (updateWalletAtomic store300 "X" (.fin 500) "TOPUP" none 7).1.transactions =
        store300.transactions ++ [t] ∧
      t.id = store300.nextId ∧ t.cardUid = "X" ∧ t.status = "SUCCESS" ∧
      t.previousBalance = .fin 300 ∧ t.newBalance = .fin (300 + 500) :=
  ⟨by decide, by decide, by decide,
    updateWalletAtomic_commit_exact store300 "X" 300 500 "TOPUP" none 7
      (by decide) (by decide) (by decide)⟩

/-! ## Lemmas on `getOrCreateWallet` over JavaScript numbers -/

theorem ieee_getOrCreateWallet_transactions (s : Store) (uid : String) (now : Nat) :
    (getOrCreateWallet s uid now).1.transactions = s.transactions := by
  unfold getOrCreateWallet
  cases findCard s.cards uid <;> cases hw : findWallet s.wallets uid <;> simp [hw]

theorem ieee_getOrCreateWallet_wallets_some (s : Store) (uid : String) (now : Nat)
    (w : Wallet) (h : findWallet s.wallets uid = some w) :
    (getOrCreateWallet s uid now).1.wallets = s.wallets := by
  unfold getOrCreateWallet
  cases findCard s.cards uid <;> simp [h]

theorem ieee_getOrCreateWallet_wallets_none (s : Store) (uid : String) (now : Nat)
    (h : findWallet s.wallets uid = none) :
    ∃ n : Nat,
      (getOrCreateWallet s uid now).1.wallets =
        s.wallets ++ [{ id := n, cardUid := uid, balance := .fin 0, updatedAt := now }] := by
  unfold getOrCreateWallet
  cases findCard s.cards uid
  · exact ⟨s.nextId + 1, by simp [h]⟩
  · exact ⟨s.nextId, by simp [h]⟩

theorem ieee_getOrCreateWallet_keeps_wallet (s : Store) (uid other : String) (now : Nat)
    (w : Wallet) (h : findWallet s.wallets other = some w) :
    findWallet (getOrCreateWallet s uid now).1.wallets other = some w := by
  cases hf : findWallet s.wallets uid with
  | some w0 => rw [ieee_getOrCreateWallet_wallets_some s uid now w0 hf]; exact h
  | none =>
    obtain ⟨n, hn⟩ := ieee_getOrCreateWallet_wallets_none s uid now hf
    rw [hn]
    unfold findWallet at h ⊢
    rw [List.find?_append, h]
    rfl

theorem ieee_getOrCreateWallet_nonneg (s : Store) (uid : String) (now : Nat)
    (h : NonNegBalances s) : NonNegBalances (getOrCreateWallet s uid now).1 := by
  intro w hw
  cases hf : findWallet s.wallets uid with
  | some w0 =>
    rw [ieee_getOrCreateWallet_wallets_some s uid now w0 hf] at hw
    exact h w hw
  | none =>
    obtain ⟨n, hn⟩ := ieee_getOrCreateWallet_wallets_none s uid now hf
    rw [hn] at hw
    rcases List.mem_append.mp hw with h1 | h1
    · exact h w h1
    · rw [List.mem_singleton.mp h1]
      rfl

/-! ## Approved payments over JavaScript numbers -/

/-- C16, as stated, fails: with the balance `2 ^ 53 + 2` and `totalAmount = 1`
(so `0 < totalAmount <= b`) the payment is approved, but the difference is
rounded: the stored and reported new balance is `2 ^ 53`, two less than `b`. -/
theorem payHandler_deducts_two :
    getWalletBalance storeBigger "X" = some (.fin 9007199254740994) ∧
      getWalletBalance
        (payHandler (fun _ => "") storeBigger
          { uid := some "X", productId := none, quantity := none,
            totalAmount := some (.fin 1) } 7).1 "X" = some (.fin 9007199254740992) ∧
      (payHandler (fun _ => "") storeBigger
          { uid := some "X", productId := none, quantity := none,
            totalAmount := some (.fin 1) } 7).2 =
        .payOk "X" (.fin 1) (.fin 9007199254740994) (.fin 9007199254740992) "approved" 7 ∧
      (9007199254740994 : Int) - 1 ≠ 9007199254740992 := by
  decide

/-- C16, amended: when the wallet of the (non-empty) card uid holds the integer
`b` of magnitude at most `2 ^ 53` and `totalAmount` is an integer with
`0 < totalAmount <= b`, `POST /pay` brings the balance to `b - totalAmount`,
appends exactly one record for the card (type PAYMENT, status SUCCESS, amount
`totalAmount`, balances `b` and `b - totalAmount`) and answers with the success
object carrying status `approved` and the two balances. -/
theorem payHandler_approved_exact (render : JsNum → String) (s : Store) (uid : String)
    (b totalAmount : Int) (productId : Option String) (quantity : Option JsNum) (now : Nat)
    (huid : uid ≠ "") (hb : getWalletBalance s uid = some (.fin b))
    (hpos : 0 < totalAmount) (hle : totalAmount ≤ b) (hsafe : b.natAbs ≤ maxExact) :
    getWalletBalance
        (payHandler render s
          { uid := some uid, productId := productId, quantity := quantity,
            totalAmount := some (.fin totalAmount) } now).1 uid =
        some (.fin (b - totalAmount)) ∧
      (∃ t : Transaction,
        (payHandler render s
          { uid := some uid, productId := productId, quantity := quantity,
            totalAmount := some (.fin totalAmount) } now).1.transactions =
          s.transactions ++ [t] ∧
        t.cardUid = uid ∧ t.type = "PAYMENT" ∧ t.status = "SUCCESS" ∧
        t.amount = .fin totalAmount ∧ t.previousBalance = .fin b ∧
        t.newBalance = .fin (b - totalAmount)) ∧
      (payHandler render s
          { uid := some uid, productId := productId, quantity := quantity,
            totalAmount := some (.fin totalAmount) } now).2 =
        .payOk uid (.fin totalAmount) (.fin b) (.fin (b - totalAmount)) "approved" now := by
  obtain ⟨w, hw, hwb⟩ := ieee_getWalletBalance_eq_some hb
  have hw1 := ieee_getOrCreateWallet_keeps_wallet s uid uid now w hw
  have hb1 : getWalletBalance (getOrCreateWallet s uid now).1 uid = some (.fin b) := by
    rw [ieee_getWalletBalance_of_findWallet hw1, hwb]
  have hv : (uid == "" || !(JsNum.fin totalAmount).truthy ||
      (JsNum.fin totalAmount).le (.fin 0)) = false := by
    simp only [JsNum.truthy, JsNum.le, Bool.or_eq_false_iff, beq_eq_false_iff_ne, ne_eq,
      decide_eq_false_iff_not, Bool.not_eq_false', bne_iff_ne]
    exact ⟨⟨huid, by omega⟩, by omega⟩
  have hlow : balanceBelow (some (.fin b)) (.fin totalAmount) = false := by
    simp only [balanceBelow, Option.getD_some, JsNum.lt, decide_eq_false_iff_not]
    omega
  have hexact : (b + -totalAmount).natAbs ≤ maxExact := by omega
  have hadd : (JsNum.fin b).add (JsNum.fin totalAmount).neg = .fin (b - totalAmount) := by
    show JsNum.add (.fin b) (.fin (-totalAmount)) = _
    rw [add_fin_exact b (-totalAmount) hexact]
    congr 1
  have hguard : ¬ ("PAYMENT" = "PAYMENT" ∧
      (w.balance.add (JsNum.fin totalAmount).neg).lt (.fin 0) = true) := by
    rw [hwb, hadd]
    simp only [JsNum.lt, decide_eq_true_eq, true_and]
    omega
  have habs : (JsNum.fin totalAmount).neg.abs = .fin totalAmount := by
    show JsNum.fin (((-totalAmount).natAbs : Nat) : Int) = .fin totalAmount
    congr 1
    omega
  simp only [payHandler, hv, Bool.false_eq_true, ↓reduceIte, hb1, hlow]
  rw [ieee_updateWalletAtomic_committed _ uid _ "PAYMENT" _ now w hw1 hguard]
  simp only [hwb, hadd, habs, ieee_getOrCreateWallet_transactions]
  refine ⟨?_, ⟨_, rfl, rfl, rfl, rfl, rfl, rfl, rfl⟩, trivial⟩
  have h1 := ieee_findWallet_updateOne_self uid (.fin (b - totalAmount)) now w _ hw1
  unfold getWalletBalance
  rw [h1]
  rfl

/-- Witness for the amended C16: paying 200 with the card holding 300. -/
theorem payHandler_approved_exact_witness :
    "X" ≠ "" ∧ getWalletBalance store300 "X" = some (.fin 300) ∧ (0 : Int) < 200 ∧
    (200 : Int) ≤ 300 ∧ (300 : Int).natAbs ≤ maxExact ∧
    getWalletBalance
        (payHandler (fun _ => "") store300
          { uid := some "X", productId := some "p1", quantity := some (.fin 2),
            totalAmount := some (.fin 200) } 7).1 "X" = some (.fin (300 - 200)) ∧
      (∃ t : Transaction,
        (payHandler (fun _ => "") store300
          { uid := some "X", productId := some "p1", quantity := some (.fin 2),
            totalAmount := some (.fin 200) } 7).1.transactions =
          store300.transactions ++ [t] ∧
        t.cardUid = "X" ∧ t.type = "PAYMENT" ∧ t.status = "SUCCESS" ∧
        t.amount = .fin 200 ∧ t.previousBalance = .fin 300 ∧
        t.newBalance = .fin (300 - 200)) ∧
      (payHandler (fun _ => "") store300
          { uid := some "X", productId := some "p1", quantity := some (.fin 2),
            totalAmount := some (.fin 200) } 7).2 =
        .payOk "X" (.fin 200) (.fin 300) (.fin (300 - 200)) "approved" 7 :=
  ⟨by decide, by decide, by decide, by decide, by decide,
    payHandler_approved_exact (fun _ => "") store300 "X" 300 200 (some "p1")
      (some (.fin 2)) 7 (by decide) (by decide) (by decide) (by decide) (by decide)⟩

/-! ## Records against balances over JavaScript numbers -/

theorem ieee_signedAmount_of_signAgrees (t : Transaction) (a : Int)
    (ha : t.amount = (JsNum.fin a).abs) (hsign : SignAgrees t.type a) :
    signedAmount t = some a := by
  have hamt : t.amount = .fin (a.natAbs : Int) := ha
  rcases hsign with ⟨hty, hpos⟩ | ⟨hty, hle⟩
  · simp only [signedAmount, hamt, hty, ↓reduceIte, Option.some.injEq]
    omega
  · have hne : ¬ ("PAYMENT" = "TOPUP") := by decide
    simp only [signedAmount, hamt, hty, hne, ↓reduceIte, Option.some.injEq]
    omega

/-- C8, amended: the record appended by `updateWalletAtomic` has status SUCCESS
and its `newBalance` is the stored balance of the wallet right after the call;
when the previous balance `p` and the amount `a` are integers whose sum is of
magnitude at most `2 ^ 53` (so it is not rounded) and the sign of the amount
agrees with the type (TOPUP with `a >= 0`, PAYMENT with `a <= 0`), the record
also satisfies `newBalance = previousBalance + s` for its signed amount `s`. -/
theorem updateWalletAtomic_record_exact (s : Store) (cardUid : String) (amount : JsNum)
    (ty : String) (reason : Option String) (now : Nat) (t : Transaction)
    (hrec : (updateWalletAtomic s cardUid amount ty reason now).1.transactions =
      s.transactions ++ [t]) :
    t.status = "SUCCESS" ∧
      getWalletBalance (updateWalletAtomic s cardUid amount ty reason now).1 cardUid =
        some t.newBalance ∧
      ∀ p a : Int, t.previousBalance = .fin p → amount = .fin a → SignAgrees ty a →
        (p + a).natAbs ≤ maxExact →
        ∃ sg : Int, signedAmount t = some sg ∧ t.newBalance = .fin (p + sg) := by
  cases hf : findWallet s.wallets cardUid with
  | none =>
    rw [ieee_updateWalletAtomic_missing s cardUid amount ty reason now hf] at hrec
    have hlen := congrArg List.length hrec
    simp at hlen
  | some w =>
    by_cases hg : ty = "PAYMENT" ∧ (w.balance.add amount).lt (.fin 0) = true
    · rw [ieee_updateWalletAtomic_rejected s cardUid amount ty reason now w hf hg] at hrec
      have hlen := congrArg List.length hrec
      simp at hlen
    · rw [ieee_updateWalletAtomic_committed s cardUid amount ty reason now w hf hg] at hrec ⊢
      have ht := List.append_cancel_left hrec
      have ht' := List.head_eq_of_cons_eq ht
      subst ht'
      refine ⟨rfl, ?_, ?_⟩
      · have h1 := ieee_findWallet_updateOne_self cardUid (w.balance.add amount) now w
          s.wallets hf
        unfold getWalletBalance
        rw [h1]
        rfl
      · intro p a hp ha hsign hexact
        subst ha
        refine ⟨a, ieee_signedAmount_of_signAgrees _ a rfl hsign, ?_⟩
        have hp' : w.balance = .fin p := hp
        show w.balance.add (.fin a) = .fin (p + a)
        rw [hp']
        exact add_fin_exact p a hexact

/-- Witness for the amended C8: paying 200 from the wallet holding 300. -/
theorem updateWalletAtomic_record_exact_witness :
    (updateWalletAtomic store300 "X" (.fin (-200)) "PAYMENT" none 7).1.transactions =
      store300.transactions ++ [payment200Record] ∧
    payment200Record.previousBalance = .fin 300 ∧
    SignAgrees "PAYMENT" (-200) ∧ ((300 : Int) + -200).natAbs ≤ maxExact ∧
    payment200Record.status = "SUCCESS" ∧
    getWalletBalance (updateWalletAtomic store300 "X" (.fin (-200)) "PAYMENT" none 7).1 "X" =
      some payment200Record.newBalance ∧
    ∃ sg : Int, signedAmount payment200Record = some sg ∧
      payment200Record.newBalance = .fin (300 + sg) :=
  ⟨by decide, by decide, by decide, by decide,
    (updateWalletAtomic_record_exact store300 "X" (.fin (-200)) "PAYMENT" none 7
      payment200Record (by decide)).1,
    (updateWalletAtomic_record_exact store300 "X" (.fin (-200)) "PAYMENT" none 7
      payment200Record (by decide)).2.1,
    (updateWalletAtomic_record_exact store300 "X" (.fin (-200)) "PAYMENT" none 7
      payment200Record (by decide)).2.2 300 (-200) (by decide) rfl (by decide) (by decide)⟩

/-! ## Signs under rounding -/

theorem roundInt_ne_nan (n : Int) : roundInt n ≠ .nan := by
  unfold roundInt
  split
  · split <;> exact fun h => JsNum.noConfusion h
  · exact fun h => JsNum.noConfusion h

theorem excessBits_pow_le : ∀ (fuel m : Nat), 1 ≤ m → 2 ^ excessBits fuel m ≤ m := by
  intro fuel
  induction fuel with
  | zero => intro m hm; simpa [excessBits] using hm
  | succ f ih =>
    intro m hm
    show 2 ^ (if m < 2 ^ 53 then 0 else excessBits f (m / 2) + 1) ≤ m
    by_cases hlt : m < 2 ^ 53
    · rw [if_pos hlt]
      exact hm
    · rw [if_neg hlt]
      have hhalf : 1 ≤ m / 2 := by omega
      have h1 := ih (m / 2) hhalf
      rw [pow_succ]
      omega

theorem roundMag_pos (m : Nat) (hm : 1 ≤ m) : 1 ≤ roundMag m := by
  have hpow := excessBits_pow_le m m hm
  have hq : 1 ≤ m / 2 ^ excessBits m m :=
    (Nat.one_le_div_iff (Nat.pos_pow_of_pos _ (by decide))).mpr hpow
  have hp : 1 ≤ 2 ^ excessBits m m := Nat.one_le_two_pow
  unfold roundMag
  simp only
  split
  · exact hm
  · split
    · exact Nat.one_le_iff_ne_zero.mpr (Nat.mul_ne_zero (by omega) (by omega))
    · exact Nat.one_le_iff_ne_zero.mpr (Nat.mul_ne_zero (by omega) (by omega))

theorem roundInt_neg_lt (n : Int) (h : n < 0) : JsNum.lt (roundInt n) (.fin 0) = true := by
  have hpos : 1 ≤ roundMag n.natAbs := roundMag_pos _ (by omega)
  unfold roundInt
  by_cases hov : overflowBound ≤ roundMag n.natAbs
  · rw [if_pos hov, if_pos h]; rfl
  · rw [if_neg hov, if_pos h]
    simp only [JsNum.lt, decide_eq_true_eq]
    omega

theorem nonneg_of_not_lt_zero (x : JsNum) (hx : x ≠ .nan)
    (h : ¬ x.lt (.fin 0) = true) : JsNum.le (.fin 0) x = true := by
  cases x with
  | fin m =>
    simp only [JsNum.lt, decide_eq_true_eq] at h
    simp only [JsNum.le, decide_eq_true_eq]
    omega
  | posInf => rfl
  | negInf => exact absurd rfl h
  | nan => exact absurd rfl hx

theorem add_fin_ne_nan (x : JsNum) (a : Int) (hx : JsNum.le (.fin 0) x = true) :
    x.add (.fin a) ≠ .nan := by
  cases x with
  | fin b => exact roundInt_ne_nan (b + a)
  | posInf => exact fun h => JsNum.noConfusion h
  | negInf => exact absurd hx (by decide)
  | nan => exact absurd hx (by decide)

theorem add_fin_nonneg (x : JsNum) (a : Int) (hx : JsNum.le (.fin 0) x = true)
    (ha : 0 ≤ a) : JsNum.le (.fin 0) (x.add (.fin a)) = true := by
  cases x with
  | fin b =>
    have hb : 0 ≤ b := by simpa [JsNum.le] using hx
    exact roundInt_nonneg (b + a) (by omega)
  | posInf => rfl
  | negInf => exact absurd hx (by decide)
  | nan => exact absurd hx (by decide)

/-! ## Non-negative balances over JavaScript numbers -/

theorem ieee_updateWalletAtomic_nonneg (s : Store) (cardUid : String) (a : Int)
    (ty : String) (reason : Option String) (now : Nat)
    (h : NonNegBalances s) (hcase : ty = "PAYMENT" ∨ 0 ≤ a) :
    NonNegBalances (updateWalletAtomic s cardUid (.fin a) ty reason now).1 := by
  cases hf : findWallet s.wallets cardUid with
  | none => rw [ieee_updateWalletAtomic_missing s cardUid _ ty reason now hf]; exact h
  | some w =>
    by_cases hg : ty = "PAYMENT" ∧ (w.balance.add (.fin a)).lt (.fin 0) = true
    · rw [ieee_updateWalletAtomic_rejected s cardUid _ ty reason now w hf hg]; exact h
    · rw [ieee_updateWalletAtomic_committed s cardUid _ ty reason now w hf hg]
      intro w' hw'
      rcases ieee_mem_updateOneWallet cardUid _ now w' s.wallets hw' with h1 | h1
      · exact h w' h1
      · rw [h1]
        have hw0 : JsNum.le (.fin 0) w.balance = true := h w (ieee_findWallet_mem hf)
        rcases hcase with hty | hpos
        · exact nonneg_of_not_lt_zero _ (add_fin_ne_nan w.balance a hw0)
            (fun hlt => hg ⟨hty, hlt⟩)
        · exact add_fin_nonneg w.balance a hw0 hpos

/-! ## Shape of one request step over JavaScript numbers -/

theorem ieee_topupHandler_shape (s : Store) (body : TopupBody) (now : Nat)
    (hfin : finiteAmount (.topup body now) = true) :
    (topupHandler s body now).1 = s ∨
      ∃ uid a, 0 < a ∧ a = topupAmount (.topup body now) ∧
        (topupHandler s body now).1 =
          (updateWalletAtomic (getOrCreateWallet s uid now).1 uid (.fin a) "TOPUP"
            (some "Admin top-up") now).1 := by
  obtain ⟨u, amt⟩ := body
  cases u with
  | none => left; rfl
  | some uid =>
    cases amt with
    | none => left; rfl
    | some amount =>
      cases amount with
      | fin a =>
        cases hv : (uid == "" || !(JsNum.fin a).truthy || (JsNum.fin a).le (.fin 0))
        · right
          have hpos : 0 < a := by
            simp only [JsNum.truthy, JsNum.le, Bool.or_eq_false_iff,
              decide_eq_false_iff_not] at hv
            omega
          refine ⟨uid, a, hpos, ?_, ?_⟩
          · simp only [topupAmount, hpos, ↓reduceIte]
          · simp only [topupHandler, hv, Bool.false_eq_true, ↓reduceIte]
            split <;> rfl
        · left; simp only [topupHandler, hv, ↓reduceIte]
      | posInf => exact absurd hfin (by simp [finiteAmount, JsNum.isFin])
      | negInf => exact absurd hfin (by simp [finiteAmount, JsNum.isFin])
      | nan => exact absurd hfin (by simp [finiteAmount, JsNum.isFin])

theorem ieee_payHandler_shape (render : JsNum → String) (s : Store) (body : PayBody)
    (now : Nat) (hfin : finiteAmount (.pay body now) = true) :
    (payHandler render s body now).1 = s ∨
      ∃ uid a reason, a ≤ 0 ∧ (a = 0 ∨ body.totalAmount = some (.fin (-a))) ∧
        (payHandler render s body now).1 =
          (updateWalletAtomic (getOrCreateWallet s uid now).1 uid (.fin a) "PAYMENT"
            reason now).1 := by
  obtain ⟨u, pid, q, amt⟩ := body
  cases u with
  | none => left; rfl
  | some uid =>
    cases amt with
    | none => left; rfl
    | some totalAmount =>
      cases totalAmount with
      | fin t =>
        cases hv : (uid == "" || !(JsNum.fin t).truthy || (JsNum.fin t).le (.fin 0))
        · right
          have hpos : 0 < t := by
            simp only [JsNum.truthy, JsNum.le, Bool.or_eq_false_iff,
              decide_eq_false_iff_not] at hv
            omega
          cases hlow :
              balanceBelow (getWalletBalance (getOrCreateWallet s uid now).1 uid) (.fin t)
          · refine ⟨uid, -t,
              some ("Product: " ++ renderStr pid ++ ", Qty: " ++ renderField render q),
              by omega, Or.inr (by simp), ?_⟩
            simp only [payHandler, hv, hlow, Bool.false_eq_true, ↓reduceIte, JsNum.neg]
            split <;> rfl
          · refine ⟨uid, 0,
              some ("Failed: Insufficient balance. Required: " ++ render (.fin t) ++
                ", Available: " ++
                renderBalance render
                  (getWalletBalance (getOrCreateWallet s uid now).1 uid)),
              le_refl 0, Or.inl rfl, ?_⟩
            simp only [payHandler, hv, hlow, Bool.false_eq_true, ↓reduceIte]
        · left; simp only [payHandler, hv, ↓reduceIte]
      | posInf => exact absurd hfin (by simp [finiteAmount, JsNum.isFin])
      | negInf => exact absurd hfin (by simp [finiteAmount, JsNum.isFin])
      | nan => exact absurd hfin (by simp [finiteAmount, JsNum.isFin])

theorem topupAmount_nonneg (r : Request) : 0 ≤ topupAmount r := by
  cases r with
  | topup body now =>
    obtain ⟨u, amt⟩ := body
    cases amt with
    | none => simp [topupAmount]
    | some x =>
      cases x with
      | fin a =>
        simp only [topupAmount]
        split <;> omega
      | posInf => simp [topupAmount]
      | negInf => simp [topupAmount]
      | nan => simp [topupAmount]
  | scan uid now => simp [topupAmount]
  | balance uid now => simp [topupAmount]
  | pay body now => simp [topupAmount]

theorem ieee_step_shape (render : JsNum → String) (s : Store) (r : Request)
    (hfin : finiteAmount r = true) :
    step render s r = s ∨
      (∃ uid now, step render s r = (getOrCreateWallet s uid now).1) ∨
      ∃ uid now a ty reason, SignAgrees ty a ∧ (ty = "TOPUP" → a = topupAmount r) ∧
        step render s r =
          (updateWalletAtomic (getOrCreateWallet s uid now).1 uid (.fin a) ty reason now).1 := by
  cases r with
  | scan uid now => right; left; exact ⟨uid, now, rfl⟩
  | balance uid now =>
    cases hu : (uid == "")
    · right; left
      exact ⟨uid, now, by simp only [step, balanceHandler, hu, Bool.false_eq_true, ↓reduceIte]⟩
    · left; simp only [step, balanceHandler, hu, ↓reduceIte]
  | topup body now =>
    rcases ieee_topupHandler_shape s body now hfin with h | ⟨uid, a, hpos, hamt, h⟩
    · left; exact h
    · right; right
      exact ⟨uid, now, a, "TOPUP", _, Or.inl ⟨rfl, le_of_lt hpos⟩, fun _ => hamt, h⟩
  | pay body now =>
    rcases ieee_payHandler_shape render s body now hfin with h | ⟨uid, a, reason, hle, -, h⟩
    · left; exact h
    · right; right
      exact ⟨uid, now, a, "PAYMENT", reason, Or.inr ⟨rfl, hle⟩,
        fun hty => absurd hty (by decide), h⟩

/-- C7, as stated, fails: the numeric amount `Infinity` (JSON `1e999`) passes
the validation of both handlers; after a top-up and a payment of `Infinity` the
committed balance of the card is `Infinity + -Infinity = NaN`, and `0 <= NaN`
is false. -/
theorem run_infinite_amount_nan :
    (run (fun _ => "") emptyStore
        [.topup { uid := some "X", amount := some .posInf } 1,
         .pay { uid := some "X", productId := none, quantity := none,
                totalAmount := some .posInf } 2]).wallets =
        [{ id := 1, cardUid := "X", balance := .nan, updatedAt := 2 }] ∧
      ¬ NonNegBalances
        (run (fun _ => "") emptyStore
          [.topup { uid := some "X", amount := some .posInf } 1,
           .pay { uid := some "X", productId := none, quantity := none,
                  totalAmount := some .posInf } 2]) := by
  decide

/-- C7, amended: starting from the empty store, after any finite sequence of
requests handled one at a time (card scan, `GET /balance/:uid`, `POST /topup`,
`POST /pay`) in which every amount and every totalAmount present is a finite
integer, every wallet balance `b` satisfies `0 <= b`. -/
theorem run_finite_nonneg (render : JsNum → String) (reqs : List Request)
    (hfin : ∀ r ∈ reqs, finiteAmount r = true) :
    NonNegBalances (run render emptyStore reqs) := by
  have hgen : ∀ (rs : List Request) (s : Store), (∀ r ∈ rs, finiteAmount r = true) →
      NonNegBalances s → NonNegBalances (run render s rs) := by
    intro rs
    induction rs with
    | nil => intro s _ h; exact h
    | cons r rest ih =>
      intro s hf h
      have hr : finiteAmount r = true := hf r (List.mem_cons_self r rest)
      have hrest : ∀ x ∈ rest, finiteAmount x = true :=
        fun x hx => hf x (List.mem_cons_of_mem r hx)
      have hstep : NonNegBalances (step render s r) := by
        rcases ieee_step_shape render s r hr with
          e | ⟨uid, now, e⟩ | ⟨uid, now, a, ty, reason, hsa, -, e⟩
        · rw [e]; exact h
        · rw [e]; exact ieee_getOrCreateWallet_nonneg s uid now h
        · rw [e]
          refine ieee_updateWalletAtomic_nonneg _ uid a ty reason now
            (ieee_getOrCreateWallet_nonneg s uid now h) ?_
          rcases hsa with ⟨-, hpos⟩ | ⟨hty, -⟩
          · exact Or.inr hpos
          · exact Or.inl hty
      exact ih (step render s r) hrest hstep
  refine hgen reqs emptyStore hfin ?_
  intro w hw
  simp [emptyStore] at hw

/-- Witness for the amended C7: a top-up of 500, a payment of 200 and a
declined payment of 1000 for card `X`. -/
theorem run_finite_nonneg_witness :
    (∀ r ∈ [Request.topup { uid := some "X", amount := some (.fin 500) } 1,
            Request.pay { uid := some "X", productId := none, quantity := none,
                          totalAmount := some (.fin 200) } 2,
            Request.pay { uid := some "X", productId := none, quantity := none,
                          totalAmount := some (.fin 1000) } 3],
        finiteAmount r = true) ∧
    NonNegBalances
      (run (fun _ => "") emptyStore
        [Request.topup { uid := some "X", amount := some (.fin 500) } 1,
         Request.pay { uid := some "X", productId := none, quantity := none,
                       totalAmount := some (.fin 200) } 2,
         Request.pay { uid := some "X", productId := none, quantity := none,
                       totalAmount := some (.fin 1000) } 3]) :=
  ⟨by decide, run_finite_nonneg (fun _ => "") _ (by decide)⟩

/-! ## The running sum and the chain of records over JavaScript numbers -/

theorem ieee_chained_append (t : Transaction) :
    ∀ (ts : List Transaction) (p q : JsNum), Chained p ts q → t.previousBalance = q →
      Chained p (ts ++ [t]) t.newBalance := by
  intro ts
  induction ts with
  | nil =>
    intro p q h ht
    simp only [Chained] at h
    simp only [List.nil_append, Chained]
    exact ⟨by rw [ht, h], trivial⟩
  | cons x xs ih =>
    intro p q h ht
    simp only [Chained] at h
    simp only [List.cons_append, Chained]
    exact ⟨h.1, ih _ _ h.2 ht⟩

theorem ieee_signedSum_append (t : Transaction) (a : Int) (ha : signedAmount t = some a) :
    ∀ (ts : List Transaction) (x : Int), signedSum ts = some x →
      signedSum (ts ++ [t]) = some (x + a) := by
  intro ts
  induction ts with
  | nil =>
    intro x hx
    simp only [signedSum, Option.some.injEq] at hx
    simp only [List.nil_append, signedSum, ha, Option.some.injEq]
    omega
  | cons y ys ih =>
    intro x hx
    simp only [signedSum] at hx
    cases hy : signedAmount y with
    | none => simp [hy] at hx
    | some v =>
      cases hys : signedSum ys with
      | none => simp [hy, hys] at hx
      | some r =>
        simp only [hy, hys, Option.some.injEq] at hx
        have hrec := ih r hys
        show (match signedAmount y, signedSum (ys ++ [t]) with
          | some a, some r => some (a + r)
          | _, _ => none) = some (x + a)
        rw [hy, hrec]
        show some (v + (r + a)) = some (x + a)
        congr 1
        omega

theorem ieee_successOf_append_same (txs : List Transaction) (t : Transaction)
    (uid : String) (hc : t.cardUid = uid) (hs : t.status = "SUCCESS") :
    successOf (txs ++ [t]) uid = successOf txs uid ++ [t] := by
  simp [successOf, List.filter_append, List.filter_cons, hc, hs]

theorem ieee_successOf_append_other (txs : List Transaction) (t : Transaction)
    (uid : String) (hc : t.cardUid ≠ uid) :
    successOf (txs ++ [t]) uid = successOf txs uid := by
  simp [successOf, List.filter_append, List.filter_cons, hc]

theorem ieee_successOf_eq_nil {txs : List Transaction} {uid : String}
    (h : ∀ t ∈ txs, t.cardUid ≠ uid) : successOf txs uid = [] := by
  unfold successOf
  rw [List.filter_eq_nil_iff]
  intro t ht
  simp [h t ht]

theorem ledgerChain_mono {s : Store} {uid : String} {B B' : Int}
    (h : LedgerChain s uid B) (hle : B ≤ B') : LedgerChain s uid B' := by
  obtain ⟨b, hb, h0, hB, hsum, hch⟩ := h
  exact ⟨b, hb, h0, le_trans hB hle, hsum, hch⟩

theorem ieee_getOrCreateWallet_ledger (s : Store) (uid other : String) (now : Nat)
    (B : Int) (h : LedgerChain s other B) :
    LedgerChain (getOrCreateWallet s uid now).1 other B := by
  obtain ⟨b, hb, h0, hB, hsum, hch⟩ := h
  obtain ⟨w, hw, hwb⟩ := ieee_getWalletBalance_eq_some hb
  refine ⟨b, ?_, h0, hB, ?_, ?_⟩
  · rw [ieee_getWalletBalance_of_findWallet
      (ieee_getOrCreateWallet_keeps_wallet s uid other now w hw), hwb]
  · rw [ieee_getOrCreateWallet_transactions]; exact hsum
  · rw [ieee_getOrCreateWallet_transactions]; exact hch

theorem ieee_updateWalletAtomic_ledger (s : Store) (cardUid other : String) (a A B : Int)
    (ty : String) (reason : Option String) (now : Nat)
    (hsign : SignAgrees ty a) (htop : ty = "TOPUP" → a = A) (hA : 0 ≤ A)
    (hbound : (B + A).natAbs ≤ maxExact) (h : LedgerChain s other B) :
    LedgerChain (updateWalletAtomic s cardUid (.fin a) ty reason now).1 other (B + A) := by
  have hmono : LedgerChain s other (B + A) := ledgerChain_mono h (by omega)
  cases hf : findWallet s.wallets cardUid with
  | none => rw [ieee_updateWalletAtomic_missing s cardUid _ ty reason now hf]; exact hmono
  | some w =>
    by_cases hg : ty = "PAYMENT" ∧ (w.balance.add (.fin a)).lt (.fin 0) = true
    · rw [ieee_updateWalletAtomic_rejected s cardUid _ ty reason now w hf hg]; exact hmono
    · rw [ieee_updateWalletAtomic_committed s cardUid _ ty reason now w hf hg]
      obtain ⟨b, hb, h0, hB, hsum, hch⟩ := h
      by_cases heq : other = cardUid
      · subst heq
        have hbw : w.balance = .fin b := by
          have := ieee_getWalletBalance_of_findWallet hf
          rw [hb] at this
          exact (Option.some.inj this).symm
        have hnonneg : 0 ≤ b + a := by
          rcases hsign with ⟨hty, hpos⟩ | ⟨hty, hle⟩
          · omega
          · by_contra hneg
            have hlt : (w.balance.add (.fin a)).lt (.fin 0) = true := by
              rw [hbw]
              exact roundInt_neg_lt (b + a) (by omega)
            exact hg ⟨hty, hlt⟩
        have hupper : b + a ≤ B + A := by
          rcases hsign with ⟨hty, hpos⟩ | ⟨hty, hle⟩
          · have := htop hty
            omega
          · omega
        have hadd : w.balance.add (.fin a) = .fin (b + a) := by
          rw [hbw]
          exact add_fin_exact b a (by omega)
        have h1 := ieee_findWallet_updateOne_self other (w.balance.add (.fin a)) now w
          s.wallets hf
        refine ⟨b + a, ?_, hnonneg, hupper, ?_, ?_⟩
        · unfold getWalletBalance
          rw [h1, ← hadd]
          rfl
        · rw [ieee_successOf_append_same _ _ other rfl rfl]
          exact ieee_signedSum_append _ a
            (ieee_signedAmount_of_signAgrees _ a rfl hsign) _ b hsum
        · rw [ieee_successOf_append_same _ _ other rfl rfl, ← hadd]
          exact ieee_chained_append _ _ (.fin 0) (.fin b) hch hbw
      · have h2 := ieee_findWallet_updateOne_other cardUid other (w.balance.add (.fin a)) now
          heq s.wallets
        refine ⟨b, ?_, h0, by omega, ?_, ?_⟩
        · unfold getWalletBalance at hb ⊢; rw [h2]; exact hb
        · rw [ieee_successOf_append_other _ _ other (fun e => heq e.symm)]; exact hsum
        · rw [ieee_successOf_append_other _ _ other (fun e => heq e.symm)]; exact hch

theorem topupTotal_nonneg (reqs : List Request) : 0 ≤ topupTotal reqs := by
  induction reqs with
  | nil => simp [topupTotal]
  | cons r rest ih =>
    have hr := topupAmount_nonneg r
    simp only [topupTotal, List.map_cons, List.sum_cons] at ih ⊢
    omega

theorem ieee_run_ledger (render : JsNum → String) (uid : String) :
    ∀ (reqs : List Request) (s : Store) (B : Int), 0 ≤ B →
      (∀ r ∈ reqs, finiteAmount r = true) → B + topupTotal reqs ≤ maxExact →
      LedgerChain s uid B → LedgerChain (run render s reqs) uid (B + topupTotal reqs) := by
  intro reqs
  induction reqs with
  | nil =>
    intro s B _ _ _ h
    simpa [topupTotal, run] using h
  | cons r rest ih =>
    intro s B hB hf hbound h
    have hr : finiteAmount r = true := hf r (List.mem_cons_self r rest)
    have hrest : ∀ x ∈ rest, finiteAmount x = true :=
      fun x hx => hf x (List.mem_cons_of_mem r hx)
    have hA := topupAmount_nonneg r
    have hT := topupTotal_nonneg rest
    have hsplit : topupTotal (r :: rest) = topupAmount r + topupTotal rest := by
      simp [topupTotal]
    rw [hsplit] at hbound ⊢
    have hstep : LedgerChain (step render s r) uid (B + topupAmount r) := by
      rcases ieee_step_shape render s r hr with
        e | ⟨u, now, e⟩ | ⟨u, now, a, ty, reason, hsa, htop, e⟩
      · rw [e]; exact ledgerChain_mono h (by omega)
      · rw [e]
        exact ledgerChain_mono (ieee_getOrCreateWallet_ledger s u uid now B h) (by omega)
      · rw [e]
        exact ieee_updateWalletAtomic_ledger _ u uid a (topupAmount r) B ty reason now hsa
          htop hA (by omega) (ieee_getOrCreateWallet_ledger s u uid now B h)
    have hfinal := ih (step render s r) (B + topupAmount r) (by omega) hrest (by omega) hstep
    have hrun : run render s (r :: rest) = run render (step render s r) rest := rfl
    rw [hrun]
    have heq : B + (topupAmount r + topupTotal rest) = B + topupAmount r + topupTotal rest := by
      omega
    rw [heq]
    exact hfinal

/-- C9, as stated, fails: after the card is provisioned, a top-up of `2 ^ 53`
followed by a top-up of 1 leaves the balance at `2 ^ 53` (the second sum is
rounded), while the signed amounts of the card's two SUCCESS records sum to
`2 ^ 53 + 1`. -/
theorem run_sum_differs_from_balance :
    getWalletBalance storeFresh "X" = some (.fin 0) ∧
      storeFresh.transactions = [] ∧
      getWalletBalance
        (run (fun _ => "") storeFresh
          [.topup { uid := some "X", amount := some (.fin 9007199254740992) } 2,
           .topup { uid := some "X", amount := some (.fin 1) } 3]) "X" =
        some (.fin 9007199254740992) ∧
      signedSum (successOf
        (run (fun _ => "") storeFresh
          [.topup { uid := some "X", amount := some (.fin 9007199254740992) } 2,
           .topup { uid := some "X", amount := some (.fin 1) } 3]).transactions "X") =
        some 9007199254740993 := by
  decide

/-- C9, amended: starting from a store in which the card has just been
provisioned (wallet balance 0, no record for the card), after any finite
sequence of requests handled one at a time in which every amount present is a
finite integer and the top-up amounts total at most `2 ^ 53` (so no balance is
rounded), the wallet still exists with an integer balance, the sum of the
signed amounts of the card's SUCCESS records equals that balance, and those
records chain: the first starts at 0, each next one starts at the previous
`newBalance`, and the last `newBalance` is the wallet balance. -/
theorem run_ledger_chain_exact (render : JsNum → String) (s0 : Store) (uid : String)
    (reqs : List Request)
    (hprov : getWalletBalance s0 uid = some (.fin 0))
    (hnone : ∀ t ∈ s0.transactions, t.cardUid ≠ uid)
    (hfin : ∀ r ∈ reqs, finiteAmount r = true)
    (hbound : topupTotal reqs ≤ maxExact) :
    ∃ b : Int, getWalletBalance (run render s0 reqs) uid = some (.fin b) ∧
      signedSum (successOf (run render s0 reqs).transactions uid) = some b ∧
      Chained (.fin 0) (successOf (run render s0 reqs).transactions uid) (.fin b) := by
  have hstart : LedgerChain s0 uid 0 := by
    refine ⟨0, hprov, le_refl 0, le_refl 0, ?_, ?_⟩
    · rw [ieee_successOf_eq_nil hnone]; rfl
    · rw [ieee_successOf_eq_nil hnone]; rfl
  obtain ⟨b, hb, -, -, hsum, hch⟩ :=
    ieee_run_ledger render uid reqs s0 0 (le_refl 0) hfin (by omega) hstart
  exact ⟨b, hb, hsum, hch⟩

/-- Witness for the amended C9: card `X` is provisioned, topped up by 500, pays
200 and is then declined a payment of 1000. -/
theorem run_ledger_chain_exact_witness :
    getWalletBalance storeFresh "X" = some (.fin 0) ∧
    (∀ t ∈ storeFresh.transactions, t.cardUid ≠ "X") ∧
    (∀ r ∈ [Request.topup { uid := some "X", amount := some (.fin 500) } 2,
            Request.pay { uid := some "X", productId := none, quantity := none,
                          totalAmount := some (.fin 200) } 3,
            Request.pay { uid := some "X", productId := none, quantity := none,
                          totalAmount := some (.fin 1000) } 4],
        finiteAmount r = true) ∧
    topupTotal [Request.topup { uid := some "X", amount := some (.fin 500) } 2,
                Request.pay { uid := some "X", productId := none, quantity := none,
                              totalAmount := some (.fin 200) } 3,
                Request.pay { uid := some "X", productId := none, quantity := none,
                              totalAmount := some (.fin 1000) } 4] ≤ maxExact ∧
    ∃ b : Int,
      getWalletBalance
        (run (fun _ => "") storeFresh
          [Request.topup { uid := some "X", amount := some (.fin 500) } 2,
           Request.pay { uid := some "X", productId := none, quantity := none,
                         totalAmount := some (.fin 200) } 3,
           Request.pay { uid := some "X", productId := none, quantity := none,
                         totalAmount := some (.fin 1000) } 4]) "X" = some (.fin b) ∧
      signedSum (successOf
        (run (fun _ => "") storeFresh
          [Request.topup { uid := some "X", amount := some (.fin 500) } 2,
           Request.pay { uid := some "X", productId := none, quantity := none,
                         totalAmount := some (.fin 200) } 3,
           Request.pay { uid := some "X", productId := none, quantity := none,
                         totalAmount := some (.fin 1000) } 4]).transactions "X") = some b ∧
      Chained (.fin 0) (successOf
        (run (fun _ => "") storeFresh
          [Request.topup { uid := some "X", amount := some (.fin 500) } 2,
           Request.pay { uid := some "X", productId := none, quantity := none,
                         totalAmount := some (.fin 200) } 3,
           Request.pay { uid := some "X", productId := none, quantity := none,
                         totalAmount := some (.fin 1000) } 4]).transactions "X") (.fin b) :=
  ⟨by decide, by decide, by decide, by decide,
    run_ledger_chain_exact (fun _ => "") storeFresh "X" _ (by decide) (by decide)
      (by decide) (by decide)⟩

/-! ## Integer amounts stay integers -/

theorem ieee_getOrCreateWallet_integer (s : Store) (uid : String) (now : Nat)
    (hs : IntegerStore s) (hb : SmallBalances s) :
    IntegerStore (getOrCreateWallet s uid now).1 ∧
      SmallBalances (getOrCreateWallet s uid now).1 := by
  cases hf : findWallet s.wallets uid with
  | some w0 =>
    refine ⟨⟨?_, ?_⟩, ?_⟩
    · rw [ieee_getOrCreateWallet_wallets_some s uid now w0 hf]; exact hs.1
    · rw [ieee_getOrCreateWallet_transactions]; exact hs.2
    · unfold SmallBalances
      rw [ieee_getOrCreateWallet_wallets_some s uid now w0 hf]; exact hb
  | none =>
    obtain ⟨n, hn⟩ := ieee_getOrCreateWallet_wallets_none s uid now hf
    refine ⟨⟨?_, ?_⟩, ?_⟩
    · rw [hn]
      intro w hw
      rcases List.mem_append.mp hw with h1 | h1
      · exact hs.1 w h1
      · rw [List.mem_singleton.mp h1]; rfl
    · rw [ieee_getOrCreateWallet_transactions]; exact hs.2
    · unfold SmallBalances
      rw [hn]
      intro w hw
      rcases List.mem_append.mp hw with h1 | h1
      · exact hb w h1
      · rw [List.mem_singleton.mp h1]
        rfl

theorem ieee_updateWalletAtomic_integer (s : Store) (cardUid : String) (a : Int)
    (ty : String) (reason : Option String) (now : Nat)
    (hs : IntegerStore s) (hb : SmallBalances s) (ha : a.natAbs ≤ halfExact) :
    IntegerStore (updateWalletAtomic s cardUid (.fin a) ty reason now).1 := by
  cases hf : findWallet s.wallets cardUid with
  | none => rw [ieee_updateWalletAtomic_missing s cardUid _ ty reason now hf]; exact hs
  | some w =>
    by_cases hg : ty = "PAYMENT" ∧ (w.balance.add (.fin a)).lt (.fin 0) = true
    · rw [ieee_updateWalletAtomic_rejected s cardUid _ ty reason now w hf hg]; exact hs
    · rw [ieee_updateWalletAtomic_committed s cardUid _ ty reason now w hf hg]
      obtain ⟨n, hn, hnb⟩ : ∃ n : Int, w.balance = .fin n ∧ n.natAbs ≤ halfExact := by
        have hsm := hb w (ieee_findWallet_mem hf)
        cases hwb : w.balance with
        | fin n =>
          rw [hwb] at hsm
          exact ⟨n, rfl, by simpa [JsNum.isSmall] using hsm⟩
        | posInf => rw [hwb] at hsm; exact absurd hsm (by decide)
        | negInf => rw [hwb] at hsm; exact absurd hsm (by decide)
        | nan => rw [hwb] at hsm; exact absurd hsm (by decide)
      have hexact : (n + a).natAbs ≤ maxExact := by
        unfold halfExact at hnb ha
        unfold maxExact
        omega
      have hadd : w.balance.add (.fin a) = .fin (n + a) := by
        rw [hn]; exact add_fin_exact n a hexact
      rw [hadd, hn]
      constructor
      · intro w' hw'
        rcases ieee_mem_updateOneWallet cardUid _ now w' s.wallets hw' with h1 | h1
        · exact hs.1 w' h1
        · rw [h1]; rfl
      · intro t ht
        rcases List.mem_append.mp ht with h1 | h1
        · exact hs.2 t h1
        · rw [List.mem_singleton.mp h1]
          exact ⟨rfl, rfl, rfl⟩

/-- C13, amended: when every stored balance and every recorded amount and
balance is an integer, the balances are of magnitude at most `2 ^ 52`, and the
amount of the request is an integer of magnitude at most `2 ^ 52`, then after
`POST /topup` and after `POST /pay` every stored balance and every recorded
amount and balance is still an integer. -/
theorem handlers_keep_integers (render : JsNum → String) (s : Store)
    (uid productId : Option String) (quantity : Option JsNum) (a : Int) (now : Nat)
    (hs : IntegerStore s) (hb : SmallBalances s) (ha : a.natAbs ≤ halfExact) :
    IntegerStore (topupHandler s { uid := uid, amount := some (.fin a) } now).1 ∧
      IntegerStore
        (payHandler render s
          { uid := uid, productId := productId, quantity := quantity,
            totalAmount := some (.fin a) } now).1 := by
  constructor
  · rcases ieee_topupHandler_shape s { uid := uid, amount := some (.fin a) } now rfl with
      h | ⟨u, x, hpos, hamt, h⟩
    · rw [h]; exact hs
    · rw [h]
      have hxa : x = a := by
        simp only [topupAmount] at hamt
        split at hamt <;> omega
      obtain ⟨h1, h2⟩ := ieee_getOrCreateWallet_integer s u now hs hb
      exact ieee_updateWalletAtomic_integer _ u x "TOPUP" _ now h1 h2 (by omega)
  · rcases ieee_payHandler_shape render s
        { uid := uid, productId := productId, quantity := quantity,
          totalAmount := some (.fin a) } now rfl with
      h | ⟨u, x, reason, hle, hx, h⟩
    · rw [h]; exact hs
    · rw [h]
      have hxb : x.natAbs ≤ halfExact := by
        rcases hx with h0 | h1
        · subst h0; decide
        · have : a = -x := by
            simpa using h1
          omega
      obtain ⟨h1, h2⟩ := ieee_getOrCreateWallet_integer s u now hs hb
      exact ieee_updateWalletAtomic_integer _ u x "PAYMENT" reason now h1 h2 hxb

/-- Witness for the amended C13: a top-up of 5 and a payment of 5 for card `X`
holding 300. -/
theorem handlers_keep_integers_witness :
    IntegerStore store300 ∧ SmallBalances store300 ∧ (5 : Int).natAbs ≤ halfExact ∧
    IntegerStore
      (topupHandler store300 { uid := some "X", amount := some (.fin 5) } 7).1 ∧
    IntegerStore
      (payHandler (fun _ => "") store300
        { uid := some "X", productId := none, quantity := none,
          totalAmount := some (.fin 5) } 7).1 :=
  ⟨by decide, by decide, by decide,
    handlers_keep_integers (fun _ => "") store300 (some "X") none none 5 7
      (by decide) (by decide) (by decide)⟩

end Ieee

end SmartPay
